import Mathlib

/-!
# primavera-val : shallow embedding and verification

A shallow embedding of the filename-decomposition and temporal-consistency
validation engine of `primavera_val/__init__.py`, together with theorems
settling the specification claims.

Conventions of the embedding:

* Python strings are modelled as `String` / `List Char`; slicing `s[a:b]`
  becomes `(l.drop a).take (b - a)`.
* Python exceptions become an explicit error type `VErr`; the distinction
  between `FileValidationError` and uncaught exceptions (`IndexError`,
  `NotImplementedError`, `KeyError`) is preserved.
* The metadata dictionary is modelled as an association list to which
  assignments prepend; `List.lookup` therefore returns the most recent
  assignment, matching dict semantics (each key is assigned at most once
  in the modelled code).
* Filesystem access (`os.path.getsize`) is a collaborator and is passed in
  as the `filesize` argument.
-/

namespace PrimaveraVal

/-! ## Error taxonomy

`fileValidation*` constructors correspond to `FileValidationError` raised by
the source; `indexError`, `keyError` and `notImplemented` model the uncaught
standard exceptions that escape the decoder. -/

inductive VErr where
  /-- `NotImplementedError('file_format must be CMIP5 or CMIP6')`. -/
  | notImplemented : VErr
  /-- An uncaught `IndexError` from list subscription. -/
  | indexError : VErr
  /-- An uncaught `KeyError` from dict subscription. -/
  | keyError : VErr
  /-- An uncaught `TypeError`-like fault (e.g. subscripting `None` bounds). -/
  | runtimeFault : VErr
  /-- `FileValidationError('Unknown date format in filename: ...')`. -/
  | unknownDateFormat : String → VErr
  /-- `FileValidationError('Unknown filename format: ...')`. -/
  | unknownFilenameFormat : String → VErr
  /-- `FileValidationError('Start date in filename does not match ...')`. -/
  | startDateMismatch : String → VErr
  /-- `FileValidationError('End date in filename does not match ...')`. -/
  | endDateMismatch : String → VErr
  /-- `FileValidationError('The points in the time dimension ... not contiguous')`. -/
  | nonContiguousTimeAxis : String → VErr
deriving DecidableEq, Repr

/-- Whether an error models a `FileValidationError` (a defined validation
error kind) as opposed to an uncaught standard exception. -/
def VErr.isFileValidationError : VErr → Bool
  | .notImplemented => false
  | .indexError => false
  | .keyError => false
  | .runtimeFault => false
  | _ => true

instance {ε α : Type} [DecidableEq ε] [DecidableEq α] : DecidableEq (Except ε α) :=
  fun a b =>
    match a, b with
    | .ok x, .ok y => decidable_of_iff (x = y) (by simp)
    | .ok _, .error _ => isFalse (by intro h; cases h)
    | .error _, .ok _ => isFalse (by intro h; cases h)
    | .error x, .error y => decidable_of_iff (x = y) (by simp)

/-! ## Characters, digits and Python `int` conversion -/

/-- ASCII decimal digit test (the digits accepted by Python `int` on the
modelled inputs). -/
def isDigitChar (c : Char) : Bool := 48 ≤ c.toNat && c.toNat ≤ 57

/-- Numeric value of a decimal digit character. -/
def digitVal (c : Char) : Nat := c.toNat - 48

/-- Value of a decimal digit string, most significant digit first. -/
def valOfDigits (l : List Char) : Nat :=
  l.foldl (fun a c => 10 * a + digitVal c) 0

/-- Integer conversion of an unsigned decimal string: `some` exactly when the
string is nonempty and all digits (the failure case models the `ValueError`
raised by Python `int`). -/
def pyIntCore (l : List Char) : Option Nat :=
  if l ≠ [] ∧ l.all isDigitChar then some (valOfDigits l) else none

/-- Python `int(str)`: an optional single leading sign followed by digits.
(Surrounding whitespace acceptance of `int` is not modelled: the modelled
call sites only receive slices of whitespace-free filename tokens.) -/
def pyInt (l : List Char) : Option Int :=
  match l with
  | c :: rest =>
    if c = '+' then (pyIntCore rest).map Int.ofNat
    else if c = '-' then (pyIntCore rest).map (fun n => -(n : Int))
    else (pyIntCore l).map Int.ofNat
  | [] => none

/-- Python slice `l[a:b]` for `0 ≤ a ≤ b`. -/
def pySlice (l : List Char) (a b : Nat) : List Char :=
  (l.drop a).take (b - a)

/-! ## PartialDateTime (iris collaborator data model) -/

/-- `iris.time.PartialDateTime`: every field optional, `none` meaning the
field does not take part in comparisons. -/
structure PartialDateTime where
  year : Option Int := none
  month : Option Int := none
  day : Option Int := none
  hour : Option Int := none
  minute : Option Int := none
  second : Option Int := none
  microsecond : Option Int := none
deriving DecidableEq, Repr

/-- A concrete calendar date-time as decoded from the time axis
(`datetime.datetime`: all fields present). -/
structure DateTime where
  year : Int
  month : Nat
  day : Nat
  hour : Nat
  minute : Nat
  second : Nat
  microsecond : Nat
deriving DecidableEq, Repr

/-- Equality test of an iris `PartialDateTime` against a concrete datetime:
every populated field of the partial date must equal the corresponding field
of the datetime; absent fields are ignored (iris `PartialDateTime.__eq__`
against a non-`PartialDateTime` operand). -/
def pdtEqDateTime (p : PartialDateTime) (d : DateTime) : Bool :=
  p.year.all (fun y => y = d.year) &&
  p.month.all (fun m => m = (d.month : Int)) &&
  p.day.all (fun x => x = (d.day : Int)) &&
  p.hour.all (fun x => x = (d.hour : Int)) &&
  p.minute.all (fun x => x = (d.minute : Int)) &&
  p.second.all (fun x => x = (d.second : Int)) &&
  p.microsecond.all (fun x => x = (d.microsecond : Int))

/-! ## `_make_partial_date_time` -/

/-- `_make_partial_date_time(date_string, frequency)`: slice fixed-width
substrings per field according to the frequency and convert each with `int`.
`none` models the `ValueError` raised either by a failed conversion or by an
unsupported frequency string. -/
def mkPartialDateTime (ds : List Char) (frequency : String) : Option PartialDateTime :=
  if frequency = "yr" ∨ frequency = "dec" then do
    let y ← pyInt (pySlice ds 0 4)
    pure { year := some y }
  else if frequency = "mon" then do
    let y ← pyInt (pySlice ds 0 4)
    let m ← pyInt (pySlice ds 4 6)
    pure { year := some y, month := some m }
  else if frequency = "day" then do
    let y ← pyInt (pySlice ds 0 4)
    let m ← pyInt (pySlice ds 4 6)
    let d ← pyInt (pySlice ds 6 8)
    pure { year := some y, month := some m, day := some d }
  else if frequency = "6hr" ∨ frequency = "3hr" ∨ frequency = "1hr" ∨ frequency = "hr" then do
    let y ← pyInt (pySlice ds 0 4)
    let m ← pyInt (pySlice ds 4 6)
    let d ← pyInt (pySlice ds 6 8)
    let h ← pyInt (pySlice ds 8 10)
    let mi ← pyInt (pySlice ds 10 12)
    pure { year := some y, month := some m, day := some d, hour := some h, minute := some mi }
  else if frequency = "subhr" then do
    let y ← pyInt (pySlice ds 0 4)
    let m ← pyInt (pySlice ds 4 6)
    let d ← pyInt (pySlice ds 6 8)
    let h ← pyInt (pySlice ds 8 10)
    let mi ← pyInt (pySlice ds 10 12)
    let s ← pyInt (pySlice ds 12 14)
    pure { year := some y, month := some m, day := some d, hour := some h,
           minute := some mi, second := some s }
  else none

/-! ## `_get_frequency` -/

/-- A character matched by the regular expression class `[a-z\d]` (lowercase
ASCII letter or ASCII digit; the non-ASCII digits additionally matched by
`\d` under Python's unicode mode never occur in the modelled inputs). -/
def isFreqChar (c : Char) : Bool :=
  ('a' ≤ c && c ≤ 'z') || ('0' ≤ c && c ≤ '9')

/-- First maximal run of `isFreqChar` characters, as found by
`re.search(r'[a-z\d]+', ...)`: `none` when no character matches. -/
def firstRun : List Char → Option (List Char)
  | [] => none
  | c :: rest =>
    if isFreqChar c then some (c :: rest.takeWhile isFreqChar)
    else firstRun rest

/-- Strip the `Prim` prefix from a table name (`table_name[4:]` when
`table_name.startswith('Prim')`). -/
def stripPrim (l : List Char) : List Char :=
  match l with
  | 'P' :: 'r' :: 'i' :: 'm' :: rest => rest
  | _ => l

/-- `_get_frequency(table_name)`: strip a leading `Prim`, then return the
first maximal run of lowercase letters and digits; `none` models the
`ValueError` raised when no such run exists. -/
def getFrequency (tableName : String) : Option String :=
  (firstRun (stripPrim tableName.toList)).map fun l => ⟨l⟩

/-! ## String utilities mirroring the Python operations used -/

/-- Python `str.split(sep)` for a single-character separator: splits at every
occurrence, keeping empty parts (`''.split('_') == ['']`). -/
def splitChar (sep : Char) : List Char → List (List Char)
  | [] => [[]]
  | c :: rest =>
    match splitChar sep rest with
    | [] => [[]]
    | h :: t => if c = sep then [] :: h :: t else (c :: h) :: t

/-- Lowercase an ASCII character (Python `str.lower` restricted to the ASCII
range actually exercised by table names). -/
def lowerChar (c : Char) : Char :=
  if 'A' ≤ c ∧ c ≤ 'Z' then Char.ofNat (c.toNat + 32) else c

/-- Python `str.lower`. -/
def lowerStr (s : String) : String := ⟨s.toList.map lowerChar⟩

/-- Python `needle in hay` substring membership. -/
def containsSub (hay needle : List Char) : Bool :=
  (List.range (hay.length + 1)).any fun i => needle.isPrefixOf (hay.drop i)

/-- Python `str.endswith`. -/
def strEndsWith (s suffix : String) : Bool :=
  suffix.toList.isSuffixOf s.toList

/-- The part of `s` before the last occurrence of `sep`
(`s.rpartition(sep)[0]`, which is `''` when `sep` does not occur). -/
def rpartitionBefore (s sep : List Char) : List Char :=
  match (List.range (s.length + 1)).reverse.find? (fun i => sep.isPrefixOf (s.drop i)) with
  | some i => s.take i
  | none => []

/-- `os.path.basename`: the part after the last `/`. -/
def osBasename (p : String) : String :=
  ⟨(splitChar '/' p.toList).getLastD []⟩

/-- `os.path.dirname`: the part before the last `/`, with trailing slashes
stripped unless the result consists only of slashes; `''` when there is no
slash. -/
def osDirname (p : String) : String :=
  match (List.range (p.toList.length + 1)).reverse.find? (fun i => ['/'].isPrefixOf (p.toList.drop i)) with
  | none => ""
  | some i =>
    let head := p.toList.take (i + 1)
    if head.all (fun c => c = '/') then ⟨head⟩
    else ⟨(head.reverse.dropWhile (fun c => c = '/')).reverse⟩

/-! ## The metadata dictionary -/

/-- A value stored in the metadata dictionary. `nothing` models Python
`None`, distinct from key absence. -/
inductive MetaValue where
  | str : String → MetaValue
  | pdt : PartialDateTime → MetaValue
  | nothing : MetaValue
  | nat : Nat → MetaValue
deriving DecidableEq, Repr

/-- The metadata dictionary, as an association list.  Assignments prepend, so
`List.lookup` sees the most recent one first. -/
abbrev Metadata := List (String × MetaValue)

/-- Dict assignment `metadata[k] = v`. -/
def mdInsert (md : Metadata) (k : String) (v : MetaValue) : Metadata :=
  (k, v) :: md

/-! ## `identify_filename_metadata` -/

/-- The enumerated frequency vocabulary `FREQUENCY_VALUES` of the source, in
source order. -/
def FREQUENCY_VALUES : List String :=
  ["ann", "mon", "day", "6hr", "3hr", "1hr", "subhr", "fx"]

/-- The secondary frequency classification (lines 95-101 of the source): the
first member of `FREQUENCY_VALUES` occurring as a substring of the lowercased
table field, defaulting to the empty string. -/
def secondaryFrequency (table : String) : String :=
  match FREQUENCY_VALUES.find? (fun f => containsSub (lowerStr table).toList f.toList) with
  | some f => f
  | none => ""

/-- The ordered field names of the selected naming schema; `none` models the
`NotImplementedError` for an unknown `file_format`. -/
def componentsFor (fileFormat : String) : Option (List String) :=
  if fileFormat = "CMIP5" then
    some ["cmor_name", "table", "climate_model", "experiment", "rip_code", "date_string"]
  else if fileFormat = "CMIP6" then
    some ["cmor_name", "table", "climate_model", "experiment", "rip_code", "grid", "date_string"]
  else none

/-- Split the basename into sections: strip a trailing `-clim.nc` (else the
part before the last `.nc`) and split on `_`. -/
def filenameSects (basename : String) : List String :=
  let body :=
    if strEndsWith basename "-clim.nc" then rpartitionBefore basename.toList "-clim.nc".toList
    else rpartitionBefore basename.toList ".nc".toList
  (splitChar '_' body).map fun l => ⟨l⟩

/-- The `present`/`day` merge step (lines 61-64): subscription of sections 3
and (conditionally) 4 raises `IndexError` when out of range; when sections 3
and 4 are the literal `present` and `day` they are merged back into a single
section. -/
def mergeSects (sects : List String) : Except VErr (List String) :=
  match sects[3]? with
  | none => .error .indexError
  | some s3 =>
    if s3 = "present" then
      match sects[4]? with
      | none => .error .indexError
      | some s4 =>
        if s4 = "day" then .ok (sects.take 3 ++ [s3 ++ "_" ++ s4] ++ sects.drop 5)
        else .ok sects
    else .ok sects

/-- Decode the compound date-range token (lines 71-80): split on `-` into
exactly a start and an end string (a different part count is the `ValueError`
caught as `Unknown filename format`), then parse both with
`_make_partial_date_time` (a failure there is caught as
`Unknown date format`). -/
def parseDateRange (filename : String) (tok : List Char) (frequency : String) :
    Except VErr (PartialDateTime × PartialDateTime) :=
  match splitChar '-' tok with
  | [sd, ed] =>
    match mkPartialDateTime sd frequency, mkPartialDateTime ed frequency with
    | some p, some q => .ok (p, q)
    | _, _ => .error (.unknownDateFormat filename)
  | _ => .error (.unknownFilenameFormat filename)

/-- The field-zipping loop (lines 67-85): `zip(components, filename_sects)`
truncates to the shorter list; the `date_string` field resolves the frequency
from the already-assigned table field (a resolution failure is the
`ValueError` caught as `Unknown filename format`) and parses the date range;
every other field is assigned verbatim. -/
def zipLoop (filename : String) : List (String × String) → Metadata → Except VErr Metadata
  | [], md => .ok md
  | (name, tok) :: rest, md =>
    if name = "date_string" then
      match List.lookup "table" md with
      | some (.str table) =>
        match getFrequency table with
        | none => .error (.unknownFilenameFormat filename)
        | some freq =>
          match parseDateRange filename tok.toList freq with
          | .error e => .error e
          | .ok (p, q) =>
            zipLoop filename rest
              (mdInsert (mdInsert md "start_date" (.pdt p)) "end_date" (.pdt q))
      | some _ => .error .runtimeFault
      | none => .error .keyError
    else zipLoop filename rest (mdInsert md name (.str tok))

/-- Fill absent `start_date`/`end_date` keys with `None` (lines 88-91). -/
def fillMissing (md : Metadata) : Metadata :=
  let md1 := if (List.lookup "start_date" md).isSome then md
             else mdInsert md "start_date" .nothing
  if (List.lookup "end_date" md1).isSome then md1
  else mdInsert md1 "end_date" .nothing

/-- `identify_filename_metadata(filename, file_format)`.  The file size read
from the filesystem collaborator is passed in as `filesize`. -/
def identifyFilenameMetadata (filename : String) (filesize : Nat) (fileFormat : String) :
    Except VErr Metadata :=
  match componentsFor fileFormat with
  | none => .error .notImplemented
  | some components =>
    let basename := osBasename filename
    let md0 : Metadata :=
      mdInsert (mdInsert [] "basename" (.str basename)) "directory" (.str (osDirname filename))
    match mergeSects (filenameSects basename) with
    | .error e => .error e
    | .ok sects =>
      match zipLoop filename (components.zip sects) md0 with
      | .error e => .error e
      | .ok md1 =>
        let md2 := mdInsert (fillMissing md1) "filesize" (.nat filesize)
        match List.lookup "table" md2 with
        | some (.str table) => .ok (mdInsert md2 "frequency" (.str (secondaryFrequency table)))
        | some _ => .error .runtimeFault
        | none => .error .keyError

/-! ## Time axis model and `_round_time` -/

/-- A cell method tag of the loaded cube (`iris.coords.CellMethod`): the
aggregation method and the coordinate names it applies to. -/
structure CellMethod where
  method : String
  coords : List String
deriving DecidableEq, Repr

/-- The time coordinate: numeric points and optional numeric bound pairs.
Stored floating-point time values are modelled as rationals. -/
structure TimeCoord where
  points : List ℚ
  bounds : Option (List (ℚ × ℚ)) := none
deriving DecidableEq

/-- The aspects of a loaded cube read by the checks. -/
structure Cube where
  time : TimeCoord
  cellMethods : List CellMethod := []
deriving DecidableEq

/-- The metadata fields read by the content checks (the dict produced by
`identify_filename_metadata`, restricted to the keys actually read;
`start_date`/`end_date` are `None` for fixed fields). -/
structure CheckMeta where
  basename : String := ""
  start_date : Option PartialDateTime := none
  end_date : Option PartialDateTime := none
  frequency : String := ""
deriving DecidableEq

/-- Whether a (proleptic Gregorian) year is a leap year. -/
def isLeap (y : Int) : Bool :=
  (y % 4 = 0 && y % 100 ≠ 0) || y % 400 = 0

/-- Number of days in a month. -/
def daysInMonth (y : Int) (m : Nat) : Nat :=
  if m = 2 then (if isLeap y then 29 else 28)
  else if m = 4 ∨ m = 6 ∨ m = 9 ∨ m = 11 then 30
  else 31

/-- The calendar day after `(y, m, d)`. -/
def nextDate (y : Int) (m d : Nat) : Int × Nat × Nat :=
  if d < daysInMonth y m then (y, m, d + 1)
  else if m < 12 then (y, m + 1, 1)
  else (y + 1, 1, 1)

/-- Advance a calendar date by `n` days. -/
def addDaysDate : Int × Nat × Nat → Nat → Int × Nat × Nat
  | p, 0 => p
  | p, n + 1 => addDaysDate (nextDate p.1 p.2.1 p.2.2) n

/-- Seconds elapsed since midnight, `(dt - dt.min).seconds` for a normalized
datetime (microseconds are carried separately by the timedelta and do not
contribute). -/
def dtSeconds (dt : DateTime) : Nat :=
  3600 * dt.hour + 60 * dt.minute + dt.second

/-- `_round_time(dt, round_to)`: round to the nearest multiple of `round_to`
seconds within the day, ties rounding up, zeroing microseconds; the
`dt + timedelta(...)` addition carries into the calendar date when rounding
reaches midnight.  `(s + round_to/2) // round_to` is computed as
`(2*s + round_to) / (2*round_to)` to keep the arithmetic in `Nat`. -/
def roundTime (dt : DateTime) (roundTo : Nat) : DateTime :=
  let s := dtSeconds dt
  let r := (2 * s + roundTo) / (2 * roundTo) * roundTo
  let date := addDaysDate (dt.year, dt.month, dt.day) (r / 86400)
  { year := date.1, month := date.2.1, day := date.2.2,
    hour := (r % 86400) / 3600, minute := ((r % 86400) % 3600) / 60,
    second := (r % 86400) % 60, microsecond := 0 }

/-! ## `_check_start_end_times` -/

/-- The frequency codes that trigger minute rounding (line 368-369 of the
source). -/
def roundingFreqs : List String :=
  ["6hr", "3hr", "1hr", "6hrPt", "3hrPt", "1hrPt"]

/-- Round a decoded endpoint iff the metadata frequency is one of
`roundingFreqs`. -/
def maybeRound (frequency : String) (d : DateTime) : DateTime :=
  if roundingFreqs.contains frequency then roundTime d 60 else d

/-- Python `file_date != data_date` where `file_date` is `None` or a
`PartialDateTime` and `data_date` a concrete datetime: `None` never equals a
datetime. -/
def fileDateMatches : Option PartialDateTime → DateTime → Bool
  | none, _ => false
  | some p, d => pdtEqDateTime p d

/-- The first and last decoded endpoints of the time axis: bounds for a
climatology file (basename ending `-clim.nc`), raw points otherwise.
`none` models the uncaught fault from subscripting absent bounds or an empty
axis.  `num2date` is the collaborator's numeric-to-calendar decoder
(`time.units.num2date`). -/
def axisEndpoints (num2date : ℚ → DateTime) (cube : Cube) (md : CheckMeta) :
    Option (DateTime × DateTime) :=
  if strEndsWith md.basename "-clim.nc" then
    match cube.time.bounds with
    | none => none
    | some bs =>
      match bs.head?, bs.getLast? with
      | some b0, some bl => some (num2date b0.1, num2date bl.2)
      | _, _ => none
  else
    match cube.time.points.head?, cube.time.points.getLast? with
    | some p0, some pl => some (num2date p0, num2date pl)
    | _, _ => none

/-- `_check_start_end_times(cube, metadata)`. -/
def checkStartEndTimes (num2date : ℚ → DateTime) (cube : Cube) (md : CheckMeta) :
    Except VErr Bool :=
  match axisEndpoints num2date cube md with
  | none => .error .runtimeFault
  | some (dataStart, dataEnd) =>
    let dataStart := maybeRound md.frequency dataStart
    let dataEnd := maybeRound md.frequency dataEnd
    if ¬ fileDateMatches md.start_date dataStart then
      .error (.startDateMismatch md.basename)
    else if ¬ fileDateMatches md.end_date dataEnd then
      .error (.endDateMismatch md.basename)
    else .ok true

/-! ## `_check_contiguity` -/

/-- Contiguity of a list of bound pairs: each pair's upper edge equals the
next pair's lower edge (`iris` `Coord.is_contiguous`; the floating-point
tolerance of the collaborator is modelled as exact equality on the exact
rational time values). -/
def isContiguous : List (ℚ × ℚ) → Bool
  | [] => true
  | [_] => true
  | a :: b :: rest => (a.2 == b.1) && isContiguous (b :: rest)

/-- `_check_contiguity(cube, metadata)`: succeed whenever any cell method has
method `point` (whatever coordinates it names); otherwise fail iff the time
axis has non-contiguous bounds; an axis without bounds passes trivially. -/
def checkContiguity (cube : Cube) (md : CheckMeta) : Except VErr Bool :=
  let timePoint := cube.cellMethods.any fun cm => cm.method = "point"
  if timePoint then .ok true
  else
    match cube.time.bounds with
    | some bs =>
      if ¬ isContiguous bs then .error (.nonContiguousTimeAxis md.basename)
      else .ok true
    | none => .ok true

/-! ## Layout tables and the spec-side re-encoder -/

/-- The frequency codes for which `_make_partial_date_time` defines a date
string layout. -/
def supportedFrequencies : List String :=
  ["yr", "dec", "mon", "day", "6hr", "3hr", "1hr", "hr", "subhr"]

/-- The fixed-width field slices `[a:b]` read by `_make_partial_date_time`
for a supported frequency. -/
def layoutSlices (frequency : String) : List (Nat × Nat) :=
  if frequency = "yr" ∨ frequency = "dec" then [(0, 4)]
  else if frequency = "mon" then [(0, 4), (4, 6)]
  else if frequency = "day" then [(0, 4), (4, 6), (6, 8)]
  else if frequency = "6hr" ∨ frequency = "3hr" ∨ frequency = "1hr" ∨ frequency = "hr" then
    [(0, 4), (4, 6), (6, 8), (8, 10), (10, 12)]
  else if frequency = "subhr" then [(0, 4), (4, 6), (6, 8), (8, 10), (10, 12), (12, 14)]
  else []

/-- The expected date-string width for a supported frequency. -/
def layoutWidth (frequency : String) : Nat :=
  if frequency = "yr" ∨ frequency = "dec" then 4
  else if frequency = "mon" then 6
  else if frequency = "day" then 8
  else if frequency = "6hr" ∨ frequency = "3hr" ∨ frequency = "1hr" ∨ frequency = "hr" then 12
  else if frequency = "subhr" then 14
  else 0

/-- A natural number as a zero-padded decimal digit string of exactly `w`
characters (most significant first, truncating above `10^w`). -/
def padNat : Nat → Nat → List Char
  | 0, _ => []
  | w + 1, n => padNat w (n / 10) ++ [Char.ofNat (48 + n % 10)]

/-- Modelled from the spec: re-encoding of a decoded `PartialDate` back to its
fixed-width zero-padded decimal string form (§8 round-trip property; the
source has no encoder).  Fields are encoded in layout order, each zero-padded
to its slice width; fields are taken as nonnegative, per the grammar of date
tokens. -/
def encodePartialDate (frequency : String) (p : PartialDateTime) : Option (List Char) :=
  if frequency = "yr" ∨ frequency = "dec" then
    p.year.map fun y => padNat 4 y.toNat
  else if frequency = "mon" then do
    let y ← p.year; let m ← p.month
    pure (padNat 4 y.toNat ++ padNat 2 m.toNat)
  else if frequency = "day" then do
    let y ← p.year; let m ← p.month; let d ← p.day
    pure (padNat 4 y.toNat ++ padNat 2 m.toNat ++ padNat 2 d.toNat)
  else if frequency = "6hr" ∨ frequency = "3hr" ∨ frequency = "1hr" ∨ frequency = "hr" then do
    let y ← p.year; let m ← p.month; let d ← p.day; let h ← p.hour; let mi ← p.minute
    pure (padNat 4 y.toNat ++ padNat 2 m.toNat ++ padNat 2 d.toNat ++
          padNat 2 h.toNat ++ padNat 2 mi.toNat)
  else if frequency = "subhr" then do
    let y ← p.year; let m ← p.month; let d ← p.day; let h ← p.hour; let mi ← p.minute
    let s ← p.second
    pure (padNat 4 y.toNat ++ padNat 2 m.toNat ++ padNat 2 d.toNat ++
          padNat 2 h.toNat ++ padNat 2 mi.toNat ++ padNat 2 s.toNat)
  else none

/-- Modelled from the spec: re-encoding of a decoded start/end pair back to
the compound date-range token, the two fixed-width strings joined by a single
hyphen. -/
def encodeDateRange (frequency : String) (p q : PartialDateTime) : Option (List Char) :=
  match encodePartialDate frequency p, encodePartialDate frequency q with
  | some a, some b => some (a ++ '-' :: b)
  | _, _ => none

/-! ## Spec-side secondary vocabulary (claim C6) -/

/-- Modelled from the spec: the claim's enumerated frequency vocabulary
`{ann, dec, yr, mon, day, 6hr, 3hr, 1hr, hr, subhr, fx}`, in the claim's
order. -/
def claimedFrequencyValues : List String :=
  ["ann", "dec", "yr", "mon", "day", "6hr", "3hr", "1hr", "hr", "subhr", "fx"]

/-- Modelled from the spec: the secondary frequency classification as the
claim states it — the first member of `claimedFrequencyValues` occurring as a
substring of the lowercased table field, defaulting to the empty string. -/
def claimedSecondaryFrequency (table : String) : String :=
  match claimedFrequencyValues.find? (fun f => containsSub (lowerStr table).toList f.toList) with
  | some f => f
  | none => ""

/-! ## Characterization helpers for minute rounding -/

/-- A normalized time-of-day (the invariant `datetime.datetime` maintains). -/
def validTime (dt : DateTime) : Prop :=
  dt.hour < 24 ∧ dt.minute < 60 ∧ dt.second < 60 ∧ dt.microsecond < 1000000

/-- The datetime truncated to its minute. -/
def floorMinute (dt : DateTime) : DateTime :=
  { dt with second := 0, microsecond := 0 }

/-- The start of the minute after `dt`'s minute, carrying into hours and the
calendar date as needed. -/
def bumpMinute (dt : DateTime) : DateTime :=
  if dt.minute < 59 then { dt with minute := dt.minute + 1, second := 0, microsecond := 0 }
  else if dt.hour < 23 then { dt with hour := dt.hour + 1, minute := 0, second := 0, microsecond := 0 }
  else
    let date := nextDate dt.year dt.month dt.day
    { year := date.1, month := date.2.1, day := date.2.2,
      hour := 0, minute := 0, second := 0, microsecond := 0 }

/-! ## Concrete scenario fixtures -/

/-- A collaborator decoder mapping the two stored time values of the
sub-daily scenario to calendar dates: the file's first point decodes to
2014-12-21 00:00:00 and its last to 2014-12-22 12:00:34 (34 seconds past
the whole minute 12:00). -/
def n2dEx : ℚ → DateTime :=
  fun q => if q = 0 then ⟨2014, 12, 21, 0, 0, 0, 0⟩ else ⟨2014, 12, 22, 12, 0, 34, 0⟩

/-- The two-point cube of the sub-daily scenario. -/
def cubeEx : Cube := { time := { points := [0, 1] } }

/-- Metadata of the sub-daily scenario: a `6hr` file declaring start
2014-12-21 00:00 and end 2014-12-22 12:`endMinute`. -/
def mdHighFreq (endMinute : Int) : CheckMeta :=
  { basename := "file.nc",
    start_date := some { year := some 2014, month := some 12, day := some 21,
                         hour := some 0, minute := some 0 },
    end_date := some { year := some 2014, month := some 12, day := some 22,
                       hour := some 12, minute := some endMinute },
    frequency := "6hr" }

/-- A non-contiguous bounds list: the upper edge 1 of the first pair differs
from the lower edge 2 of the second. -/
def gapBounds : List (ℚ × ℚ) := [(0, 1), (2, 3)]

/-- A cube with the non-contiguous bounds and the given cell methods. -/
def cubeGap (cms : List CellMethod) : Cube :=
  { time := { points := [0, 1], bounds := some gapBounds }, cellMethods := cms }

/-- The metadata record decoded from the five-field example filename
`clt_Amon_Monty_historical_r1i1p1_185912-188411.nc` (file size 1234). -/
def exampleMd5 : Metadata :=
  [("frequency", .str "mon"),
   ("filesize", .nat 1234),
   ("end_date", .pdt { year := some 1884, month := some 11 }),
   ("start_date", .pdt { year := some 1859, month := some 12 }),
   ("rip_code", .str "r1i1p1"),
   ("experiment", .str "historical"),
   ("climate_model", .str "Monty"),
   ("table", .str "Amon"),
   ("cmor_name", .str "clt"),
   ("directory", .str ""),
   ("basename", .str "clt_Amon_Monty_historical_r1i1p1_185912-188411.nc")]

/-! # Theorems

## Helper lemmas on digit strings -/

theorem valOfDigits_append (l : List Char) (c : Char) :
    valOfDigits (l ++ [c]) = 10 * valOfDigits l + digitVal c := by
  simp [valOfDigits, List.foldl_append]

theorem digitVal_lt_ten {c : Char} (h : isDigitChar c = true) : digitVal c < 10 := by
  simp [isDigitChar, Char.toNat] at h
  simp [digitVal, Char.toNat]
  omega

theorem char_ofNat_digit {c : Char} (h : isDigitChar c = true) :
    Char.ofNat (48 + digitVal c) = c := by
  have h48 : 48 ≤ c.toNat := by
    simp [isDigitChar, Char.toNat] at h
    simpa [Char.toNat] using h.1
  have : 48 + digitVal c = c.toNat := by simp [digitVal]; omega
  rw [this, Char.ofNat_toNat]

theorem padNat_valOfDigits (l : List Char) (h : ∀ c ∈ l, isDigitChar c = true) :
    padNat l.length (valOfDigits l) = l := by
  induction l using List.reverseRecOn with
  | nil => rfl
  | append_singleton l c ih =>
    have hc : isDigitChar c = true := h c (by simp)
    have hl : ∀ x ∈ l, isDigitChar x = true := fun x hx => h x (by simp [hx])
    have hd : digitVal c < 10 := digitVal_lt_ten hc
    rw [List.length_append, List.length_singleton, valOfDigits_append, padNat]
    have hq : (10 * valOfDigits l + digitVal c) / 10 = valOfDigits l := by omega
    have hr : (10 * valOfDigits l + digitVal c) % 10 = digitVal c := by omega
    rw [hq, hr, ih hl, char_ofNat_digit hc]

theorem pyIntCore_digits (l : List Char) (hne : l ≠ [])
    (h : ∀ c ∈ l, isDigitChar c = true) : pyIntCore l = some (valOfDigits l) := by
  simp [pyIntCore, hne, List.all_eq_true.mpr h]

theorem pyInt_digits (l : List Char) (hne : l ≠ [])
    (h : ∀ c ∈ l, isDigitChar c = true) : pyInt l = some (Int.ofNat (valOfDigits l)) := by
  match l, hne with
  | c :: rest, _ =>
    have hc : isDigitChar c = true := h c (by simp)
    have hplus : ¬ c = '+' := by rintro rfl; simp [isDigitChar] at hc
    have hminus : ¬ c = '-' := by rintro rfl; simp [isDigitChar] at hc
    simp only [pyInt, if_neg hplus, if_neg hminus,
      pyIntCore_digits (c :: rest) (by simp) h, Option.map_some']

/-! ## Helper lemmas on slices -/

theorem decomp_slice (s : List Char) (a k : Nat) :
    List.drop a s = pySlice s a (a + k) ++ List.drop (a + k) s := by
  have h1 : a + k - a = k := by omega
  rw [pySlice, h1]
  have h2 : List.drop (a + k) s = List.drop k (List.drop a s) := by
    rw [List.drop_drop]
  rw [h2, List.take_append_drop]

theorem pySlice_length (s : List Char) (a k : Nat) (h : a + k ≤ s.length) :
    (pySlice s a (a + k)).length = k := by
  simp [pySlice]
  omega

theorem pySlice_digits {s : List Char} (a b : Nat)
    (h : ∀ c ∈ s, isDigitChar c = true) : ∀ c ∈ pySlice s a b, isDigitChar c = true :=
  fun c hc => h c (List.mem_of_mem_drop (List.mem_of_mem_take hc))

theorem pySlice_ne_nil (s : List Char) (a k : Nat) (hk : k ≠ 0)
    (h : a + k ≤ s.length) : pySlice s a (a + k) ≠ [] := by
  have := pySlice_length s a k h
  intro hnil
  rw [hnil] at this
  simp at this
  omega

theorem pyInt_slice (s : List Char) (a k : Nat) (hk : k ≠ 0)
    (hlen : a + k ≤ s.length) (h : ∀ c ∈ s, isDigitChar c = true) :
    pyInt (pySlice s a (a + k)) = some (Int.ofNat (valOfDigits (pySlice s a (a + k)))) :=
  pyInt_digits _ (pySlice_ne_nil s a k hk hlen) (pySlice_digits a (a + k) h)

theorem padNat_slice (s : List Char) (a k : Nat) (hlen : a + k ≤ s.length)
    (h : ∀ c ∈ s, isDigitChar c = true) :
    padNat k (valOfDigits (pySlice s a (a + k))) = pySlice s a (a + k) := by
  have hl := pySlice_length s a k hlen
  calc padNat k (valOfDigits (pySlice s a (a + k)))
      = padNat (pySlice s a (a + k)).length (valOfDigits (pySlice s a (a + k))) := by rw [hl]
    _ = pySlice s a (a + k) := padNat_valOfDigits _ (pySlice_digits a (a + k) h)

/-! ## Claim C7 -/

/-- C7: decoding `clt_Amon_Monty_historical_r1i1p1_185912-188411.nc` under
the five-field legacy schema yields variable `clt`, table `Amon`, model
`Monty`, experiment `historical`, ensemble member `r1i1p1`, start date
(1859, 12) and end date (1884, 11). -/
theorem c7_example_decode :
    ((identifyFilenameMetadata "clt_Amon_Monty_historical_r1i1p1_185912-188411.nc"
        1234 "CMIP5").toOption.bind (List.lookup "cmor_name") = some (.str "clt")) ∧
    ((identifyFilenameMetadata "clt_Amon_Monty_historical_r1i1p1_185912-188411.nc"
        1234 "CMIP5").toOption.bind (List.lookup "table") = some (.str "Amon")) ∧
    ((identifyFilenameMetadata "clt_Amon_Monty_historical_r1i1p1_185912-188411.nc"
        1234 "CMIP5").toOption.bind (List.lookup "climate_model") = some (.str "Monty")) ∧
    ((identifyFilenameMetadata "clt_Amon_Monty_historical_r1i1p1_185912-188411.nc"
        1234 "CMIP5").toOption.bind (List.lookup "experiment") = some (.str "historical")) ∧
    ((identifyFilenameMetadata "clt_Amon_Monty_historical_r1i1p1_185912-188411.nc"
        1234 "CMIP5").toOption.bind (List.lookup "rip_code") = some (.str "r1i1p1")) ∧
    ((identifyFilenameMetadata "clt_Amon_Monty_historical_r1i1p1_185912-188411.nc"
        1234 "CMIP5").toOption.bind (List.lookup "start_date") =
          some (.pdt { year := some 1859, month := some 12 })) ∧
    ((identifyFilenameMetadata "clt_Amon_Monty_historical_r1i1p1_185912-188411.nc"
        1234 "CMIP5").toOption.bind (List.lookup "end_date") =
          some (.pdt { year := some 1884, month := some 11 })) := by
  decide

/-! ## Counterexamples to the corrected claims -/

/-- C1 counterexample: under frequency `mon` (expected width 6) the 8-digit
string `18591201` parses successfully — a length mismatch does not imply an
`InvalidDateString` failure. -/
theorem c1_counterexample :
    (mkPartialDateTime "18591201".toList "mon").isSome = true ∧
    "18591201".toList.length ≠ 6 := by
  decide

/-- C2 counterexample: with the data end exactly 34 seconds past the
filename-declared minute (declared 12:00, stored 2014-12-22 12:00:34) the
sub-daily check does not pass: rounding carries into minute 12:01 and the
comparison fails with the end-date mismatch error. -/
theorem c2_counterexample :
    n2dEx 1 = ⟨2014, 12, 22, 12, 0, 34, 0⟩ ∧
    (mdHighFreq 0).end_date = some { year := some 2014, month := some 12, day := some 22,
                                     hour := some 12, minute := some 0 } ∧
    checkStartEndTimes n2dEx cubeEx (mdHighFreq 0) = .error (.endDateMismatch "file.nc") := by
  decide

/-- C3 counterexample: the table name `Primaday` carries the recognized
`Prim` prefix and ends in `day`, but resolves to `aday`, not `day`. -/
theorem c3_counterexample :
    "Prim".toList.isPrefixOf "Primaday".toList = true ∧
    "day".toList.isSuffixOf "Primaday".toList = true ∧
    getFrequency "Primaday" = some "aday" := by
  decide

/-- C4 counterexample: with a `point` cell method naming only the longitude
dimension (so no tag indicates instantaneous-point sampling for the time
dimension) and the non-contiguous bounds `[(0,1),(2,3)]`, the check
succeeds instead of failing with the non-contiguity error. -/
theorem c4_counterexample :
    (∀ cm ∈ (cubeGap [⟨"point", ["longitude"]⟩]).cellMethods,
        ¬ (cm.method = "point" ∧ "time" ∈ cm.coords)) ∧
    isContiguous gapBounds = false ∧
    checkContiguity (cubeGap [⟨"point", ["longitude"]⟩]) { basename := "f.nc" } = .ok true := by
  decide

/-- C5 counterexample: a five-token basename under the six-token CMIP5
schema decodes normally (with blank dates) instead of failing with a
malformed-filename error. -/
theorem c5_counterexample :
    (filenameSects (osBasename "clt_Amon_Monty_historical_r1i1p1.nc")).length < 6 ∧
    (identifyFilenameMetadata "clt_Amon_Monty_historical_r1i1p1.nc" 1234 "CMIP5").isOk = true ∧
    ((identifyFilenameMetadata "clt_Amon_Monty_historical_r1i1p1.nc" 1234 "CMIP5").toOption.bind
      (List.lookup "start_date") = some .nothing) := by
  decide

/-- C6 counterexample: for table `Oyr` the decoded metadata's frequency field
is the empty string, while the claim's vocabulary (which contains `yr`)
would classify it as `yr`. -/
theorem c6_counterexample :
    ((identifyFilenameMetadata "x_Oyr_m_e_r_1850-1900.nc" 5 "CMIP5").toOption.bind
      (List.lookup "frequency") = some (.str "")) ∧
    claimedSecondaryFrequency "Oyr" = "yr" := by
  decide

/-! ## Claim C3: the frequency resolver -/

theorem head_dropWhile_false (p : α → Bool) (l : List α) :
    ∀ c, (l.dropWhile p).head? = some c → p c = false := by
  induction l with
  | nil => intro c h; simp [List.dropWhile] at h
  | cons a rest ih =>
    intro c h
    by_cases ha : p a
    · rw [List.dropWhile_cons_of_pos ha] at h
      exact ih c h
    · rw [List.dropWhile_cons_of_neg ha] at h
      simp at h
      rw [← h]
      simpa using ha

theorem firstRun_eq_none (l : List Char) :
    firstRun l = none ↔ ∀ c ∈ l, isFreqChar c = false := by
  induction l with
  | nil => simp [firstRun]
  | cons c rest ih =>
    by_cases hc : isFreqChar c
    · simp [firstRun, hc]
    · rw [firstRun, if_neg hc, ih]
      constructor
      · intro h
        intro x hx
        rcases List.mem_cons.mp hx with rfl | hx
        · simpa using hc
        · exact h x hx
      · intro h x hx
        exact h x (by simp [hx])

theorem firstRun_eq_some (l r : List Char) (h : firstRun l = some r) :
    ∃ pre post, l = pre ++ r ++ post ∧
      (∀ c ∈ pre, isFreqChar c = false) ∧ r ≠ [] ∧
      (∀ c ∈ r, isFreqChar c = true) ∧
      (∀ c, post.head? = some c → isFreqChar c = false) := by
  induction l with
  | nil => simp [firstRun] at h
  | cons c rest ih =>
    by_cases hc : isFreqChar c
    · rw [firstRun, if_pos hc] at h
      obtain rfl : c :: rest.takeWhile isFreqChar = r := by
        simpa using h
      refine ⟨[], rest.dropWhile isFreqChar, ?_, by simp, by simp, ?_, ?_⟩
      · simp [List.takeWhile_append_dropWhile]
      · intro x hx
        rcases List.mem_cons.mp hx with rfl | hx
        · exact hc
        · exact List.mem_takeWhile_imp hx
      · exact head_dropWhile_false isFreqChar rest
    · rw [firstRun, if_neg hc] at h
      obtain ⟨pre, post, heq, hpre, hr, hrall, hpost⟩ := ih h
      refine ⟨c :: pre, post, by simp [heq], ?_, hr, hrall, hpost⟩
      intro x hx
      rcases List.mem_cons.mp hx with rfl | hx
      · simpa using hc
      · exact hpre x hx

theorem firstRun_append_skip (pre l : List Char) (h : ∀ c ∈ pre, isFreqChar c = false) :
    firstRun (pre ++ l) = firstRun l := by
  induction pre with
  | nil => simp
  | cons c rest ih =>
    have hc : isFreqChar c = false := h c (by simp)
    rw [List.cons_append, firstRun, if_neg (by simp [hc])]
    exact ih fun x hx => h x (by simp [hx])

/-- C3 (amended): the frequency resolver strips the `Prim` prefix and
returns the first maximal run of lowercase letters and digits, failing
exactly when no character of the stripped name is such a character; a table
name consisting of the recognized prefix, then characters that are neither
lowercase letters nor digits, then the suffix `day`, resolves to `day`. -/
theorem c3_frequency_resolver :
    (∀ t : String, getFrequency t = none ↔ ∀ c ∈ stripPrim t.toList, isFreqChar c = false) ∧
    (∀ t : String, ∀ r : String, getFrequency t = some r →
      ∃ pre post, stripPrim t.toList = pre ++ r.toList ++ post ∧
        (∀ c ∈ pre, isFreqChar c = false) ∧ r.toList ≠ [] ∧
        (∀ c ∈ r.toList, isFreqChar c = true) ∧
        (∀ c, post.head? = some c → isFreqChar c = false)) ∧
    (∀ u : String, (∀ c ∈ u.toList, isFreqChar c = false) →
      getFrequency ("Prim" ++ u ++ "day") = some "day") := by
  refine ⟨?_, ?_, ?_⟩
  · intro t
    simp [getFrequency, firstRun_eq_none]
  · intro t r h
    simp only [getFrequency, Option.map_eq_some'] at h
    obtain ⟨lr, hlr, rfl⟩ := h
    simpa using firstRun_eq_some _ lr hlr
  · intro u hu
    have htl : ("Prim" ++ u ++ "day").toList =
        'P' :: 'r' :: 'i' :: 'm' :: (u.toList ++ "day".toList) := rfl
    rw [getFrequency, htl]
    show (firstRun (u.toList ++ "day".toList)).map (fun l => (⟨l⟩ : String)) = some "day"
    rw [firstRun_append_skip u.toList "day".toList hu]
    decide

/-- Witness for C3: instantiating the characterization at concrete inputs —
`Prim` itself has no resolvable frequency, and `PrimOday` (uppercase filler
between the prefix and the suffix) resolves to `day`. -/
theorem c3_witness :
    getFrequency "Prim" = none ∧ getFrequency ("Prim" ++ "O" ++ "day") = some "day" :=
  ⟨(c3_frequency_resolver.1 "Prim").mpr (by decide),
   c3_frequency_resolver.2.2 "O" (by decide)⟩

/-! ## Claim C1: date-string parse failures -/

theorem mk_yr_unfold (ds : List Char) :
    mkPartialDateTime ds "yr" =
      (pyInt (pySlice ds 0 4)).bind fun y => some { year := some y } := rfl

theorem mk_dec_unfold (ds : List Char) :
    mkPartialDateTime ds "dec" =
      (pyInt (pySlice ds 0 4)).bind fun y => some { year := some y } := rfl

theorem mk_mon_unfold (ds : List Char) :
    mkPartialDateTime ds "mon" =
      ((pyInt (pySlice ds 0 4)).bind fun y =>
       (pyInt (pySlice ds 4 6)).bind fun m =>
       some { year := some y, month := some m }) := rfl

theorem mk_day_unfold (ds : List Char) :
    mkPartialDateTime ds "day" =
      ((pyInt (pySlice ds 0 4)).bind fun y =>
       (pyInt (pySlice ds 4 6)).bind fun m =>
       (pyInt (pySlice ds 6 8)).bind fun d =>
       some { year := some y, month := some m, day := some d }) := rfl

theorem mk_6hr_unfold (ds : List Char) :
    mkPartialDateTime ds "6hr" =
      ((pyInt (pySlice ds 0 4)).bind fun y =>
       (pyInt (pySlice ds 4 6)).bind fun m =>
       (pyInt (pySlice ds 6 8)).bind fun d =>
       (pyInt (pySlice ds 8 10)).bind fun h =>
       (pyInt (pySlice ds 10 12)).bind fun mi =>
       some { year := some y, month := some m, day := some d,
              hour := some h, minute := some mi }) := rfl

theorem mk_3hr_unfold (ds : List Char) :
    mkPartialDateTime ds "3hr" =
      ((pyInt (pySlice ds 0 4)).bind fun y =>
       (pyInt (pySlice ds 4 6)).bind fun m =>
       (pyInt (pySlice ds 6 8)).bind fun d =>
       (pyInt (pySlice ds 8 10)).bind fun h =>
       (pyInt (pySlice ds 10 12)).bind fun mi =>
       some { year := some y, month := some m, day := some d,
              hour := some h, minute := some mi }) := rfl

theorem mk_1hr_unfold (ds : List Char) :
    mkPartialDateTime ds "1hr" =
      ((pyInt (pySlice ds 0 4)).bind fun y =>
       (pyInt (pySlice ds 4 6)).bind fun m =>
       (pyInt (pySlice ds 6 8)).bind fun d =>
       (pyInt (pySlice ds 8 10)).bind fun h =>
       (pyInt (pySlice ds 10 12)).bind fun mi =>
       some { year := some y, month := some m, day := some d,
              hour := some h, minute := some mi }) := rfl

theorem mk_hr_unfold (ds : List Char) :
    mkPartialDateTime ds "hr" =
      ((pyInt (pySlice ds 0 4)).bind fun y =>
       (pyInt (pySlice ds 4 6)).bind fun m =>
       (pyInt (pySlice ds 6 8)).bind fun d =>
       (pyInt (pySlice ds 8 10)).bind fun h =>
       (pyInt (pySlice ds 10 12)).bind fun mi =>
       some { year := some y, month := some m, day := some d,
              hour := some h, minute := some mi }) := rfl

theorem mk_subhr_unfold (ds : List Char) :
    mkPartialDateTime ds "subhr" =
      ((pyInt (pySlice ds 0 4)).bind fun y =>
       (pyInt (pySlice ds 4 6)).bind fun m =>
       (pyInt (pySlice ds 6 8)).bind fun d =>
       (pyInt (pySlice ds 8 10)).bind fun h =>
       (pyInt (pySlice ds 10 12)).bind fun mi =>
       (pyInt (pySlice ds 12 14)).bind fun s =>
       some { year := some y, month := some m, day := some d,
              hour := some h, minute := some mi, second := some s }) := rfl

theorem layoutSlices_yr : layoutSlices "yr" = [(0, 4)] := rfl
theorem layoutSlices_dec : layoutSlices "dec" = [(0, 4)] := rfl
theorem layoutSlices_mon : layoutSlices "mon" = [(0, 4), (4, 6)] := rfl
theorem layoutSlices_day : layoutSlices "day" = [(0, 4), (4, 6), (6, 8)] := rfl
theorem layoutSlices_6hr :
    layoutSlices "6hr" = [(0, 4), (4, 6), (6, 8), (8, 10), (10, 12)] := rfl
theorem layoutSlices_3hr :
    layoutSlices "3hr" = [(0, 4), (4, 6), (6, 8), (8, 10), (10, 12)] := rfl
theorem layoutSlices_1hr :
    layoutSlices "1hr" = [(0, 4), (4, 6), (6, 8), (8, 10), (10, 12)] := rfl
theorem layoutSlices_hr :
    layoutSlices "hr" = [(0, 4), (4, 6), (6, 8), (8, 10), (10, 12)] := rfl
theorem layoutSlices_subhr :
    layoutSlices "subhr" = [(0, 4), (4, 6), (6, 8), (8, 10), (10, 12), (12, 14)] := rfl

/-- C1 (amended): for every frequency with a defined layout, parsing a date
string fails exactly when integer conversion fails on some fixed-width field
slice (the slice being empty or containing an unconvertible character); a
length mismatch alone does not force a failure.  In particular, the
4-character tokens of `clt_Amon_Monty_historical_r1i1p1_1859-1884.nc` under
resolved frequency `mon` make the decode fail with the invalid-date-string
error. -/
theorem c1_parse_failure_iff :
    (∀ freq ∈ supportedFrequencies, ∀ ds : List Char,
      (mkPartialDateTime ds freq = none ↔
        ∃ sl ∈ layoutSlices freq, pyInt (pySlice ds sl.1 sl.2) = none)) ∧
    identifyFilenameMetadata "clt_Amon_Monty_historical_r1i1p1_1859-1884.nc" 1234 "CMIP5" =
      .error (.unknownDateFormat "clt_Amon_Monty_historical_r1i1p1_1859-1884.nc") := by
  constructor
  · intro freq hf ds
    fin_cases hf <;>
      simp only [mk_yr_unfold, mk_dec_unfold, mk_mon_unfold, mk_day_unfold,
        mk_6hr_unfold, mk_3hr_unfold, mk_1hr_unfold, mk_hr_unfold, mk_subhr_unfold,
        layoutSlices_yr, layoutSlices_dec, layoutSlices_mon, layoutSlices_day,
        layoutSlices_6hr, layoutSlices_3hr, layoutSlices_1hr, layoutSlices_hr,
        layoutSlices_subhr]
    · cases h1 : pyInt (pySlice ds 0 4) <;> simp [h1]
    · cases h1 : pyInt (pySlice ds 0 4) <;> simp [h1]
    · cases h1 : pyInt (pySlice ds 0 4) <;> cases h2 : pyInt (pySlice ds 4 6) <;>
        simp [h1, h2]
    · cases h1 : pyInt (pySlice ds 0 4) <;> cases h2 : pyInt (pySlice ds 4 6) <;>
        cases h3 : pyInt (pySlice ds 6 8) <;> simp [h1, h2, h3]
    · cases h1 : pyInt (pySlice ds 0 4) <;> cases h2 : pyInt (pySlice ds 4 6) <;>
        cases h3 : pyInt (pySlice ds 6 8) <;> cases h4 : pyInt (pySlice ds 8 10) <;>
        cases h5 : pyInt (pySlice ds 10 12) <;> simp [h1, h2, h3, h4, h5]
    · cases h1 : pyInt (pySlice ds 0 4) <;> cases h2 : pyInt (pySlice ds 4 6) <;>
        cases h3 : pyInt (pySlice ds 6 8) <;> cases h4 : pyInt (pySlice ds 8 10) <;>
        cases h5 : pyInt (pySlice ds 10 12) <;> simp [h1, h2, h3, h4, h5]
    · cases h1 : pyInt (pySlice ds 0 4) <;> cases h2 : pyInt (pySlice ds 4 6) <;>
        cases h3 : pyInt (pySlice ds 6 8) <;> cases h4 : pyInt (pySlice ds 8 10) <;>
        cases h5 : pyInt (pySlice ds 10 12) <;> simp [h1, h2, h3, h4, h5]
    · cases h1 : pyInt (pySlice ds 0 4) <;> cases h2 : pyInt (pySlice ds 4 6) <;>
        cases h3 : pyInt (pySlice ds 6 8) <;> cases h4 : pyInt (pySlice ds 8 10) <;>
        cases h5 : pyInt (pySlice ds 10 12) <;> simp [h1, h2, h3, h4, h5]
    · cases h1 : pyInt (pySlice ds 0 4) <;> cases h2 : pyInt (pySlice ds 4 6) <;>
        cases h3 : pyInt (pySlice ds 6 8) <;> cases h4 : pyInt (pySlice ds 8 10) <;>
        cases h5 : pyInt (pySlice ds 10 12) <;> cases h6 : pyInt (pySlice ds 12 14) <;>
        simp [h1, h2, h3, h4, h5, h6]
  · decide

/-- Witness for C1: the 4-character token `1859` under frequency `mon` has
an empty month slice, so the characterization yields a parse failure. -/
theorem c1_witness :
    "mon" ∈ supportedFrequencies ∧ mkPartialDateTime "1859".toList "mon" = none :=
  ⟨by decide,
   (c1_parse_failure_iff.1 "mon" (by decide) "1859".toList).mpr
     ⟨(4, 6), by decide, by decide⟩⟩

/-! ## Claim C4: the contiguity check -/

theorem isContiguous_iff (bs : List (ℚ × ℚ)) :
    isContiguous bs = true ↔
      ∀ i a b, bs.get? i = some a → bs.get? (i + 1) = some b → a.2 = b.1 := by
  induction bs with
  | nil => simp [isContiguous]
  | cons x tail ih =>
    cases tail with
    | nil =>
      simp only [isContiguous, true_iff]
      intro i a b _ hb
      rcases i with _ | i <;> simp [List.get?] at hb
    | cons y rest =>
      rw [isContiguous, Bool.and_eq_true, ih]
      constructor
      · rintro ⟨hxy, htail⟩ i a b ha hb
        rcases i with _ | i
        · simp [List.get?] at ha hb
          subst ha
          have : (y :: rest).get? 0 = some b := by simpa [List.get?] using hb
          simp [List.get?] at this
          subst this
          simpa using hxy
        · exact htail i a b (by simpa [List.get?] using ha) (by simpa [List.get?] using hb)
      · intro h
        refine ⟨?_, ?_⟩
        · have := h 0 x y (by simp [List.get?]) (by simp [List.get?])
          simpa using this
        · intro i a b ha hb
          exact h (i + 1) a b (by simpa [List.get?] using ha) (by simpa [List.get?] using hb)

/-- C4 (amended): the contiguity check succeeds whenever any cell-method tag
has method `point` — whichever dimension that tag names, not only the time
dimension; otherwise, with bounds present it fails with the
non-contiguity error exactly when some bound pair's upper edge differs from
the next pair's lower edge, and with no bounds it trivially succeeds. -/
theorem c4_contiguity_behavior :
    (∀ cube md, (∃ cm ∈ cube.cellMethods, cm.method = "point") →
        checkContiguity cube md = .ok true) ∧
    (∀ cube md bs, (∀ cm ∈ cube.cellMethods, cm.method ≠ "point") →
        cube.time.bounds = some bs →
        (checkContiguity cube md = .error (.nonContiguousTimeAxis md.basename) ↔
          isContiguous bs = false) ∧
        (checkContiguity cube md = .ok true ↔ isContiguous bs = true)) ∧
    (∀ cube md, (∀ cm ∈ cube.cellMethods, cm.method ≠ "point") →
        cube.time.bounds = none → checkContiguity cube md = .ok true) ∧
    (∀ bs : List (ℚ × ℚ), isContiguous bs = true ↔
      ∀ i a b, bs.get? i = some a → bs.get? (i + 1) = some b → a.2 = b.1) := by
  refine ⟨?_, ?_, ?_, isContiguous_iff⟩
  · intro cube md h
    have hany : (cube.cellMethods.any fun cm => cm.method = "point") = true := by
      rw [List.any_eq_true]
      obtain ⟨cm, hcm, hm⟩ := h
      exact ⟨cm, hcm, by simp [hm]⟩
    simp [checkContiguity, hany]
  · intro cube md bs h hb
    have hany : (cube.cellMethods.any fun cm => cm.method = "point") = false := by
      rw [List.any_eq_false]
      intro cm hcm
      simpa using h cm hcm
    cases hc : isContiguous bs <;>
      simp [checkContiguity, hany, hb, hc]
  · intro cube md h hb
    have hany : (cube.cellMethods.any fun cm => cm.method = "point") = false := by
      rw [List.any_eq_false]
      intro cm hcm
      simpa using h cm hcm
    simp [checkContiguity, hany, hb]

/-- Witness for C4: the behavior at concrete cubes — the gap cube with a
`point` cell method passes, without one it fails, and a boundless cube
passes. -/
theorem c4_witness :
    checkContiguity (cubeGap [⟨"point", ["time"]⟩]) { basename := "f.nc" } = .ok true ∧
    checkContiguity (cubeGap []) { basename := "f.nc" } =
      .error (.nonContiguousTimeAxis "f.nc") ∧
    checkContiguity { time := { points := [0, 1] } } { basename := "f.nc" } = .ok true :=
  ⟨c4_contiguity_behavior.1 (cubeGap [⟨"point", ["time"]⟩]) { basename := "f.nc" }
     ⟨⟨"point", ["time"]⟩, by decide, rfl⟩,
   ((c4_contiguity_behavior.2.1 (cubeGap []) { basename := "f.nc" } gapBounds
     (by intro cm hcm; simp [cubeGap] at hcm) rfl).1).mpr (by decide),
   c4_contiguity_behavior.2.2.1 { time := { points := [0, 1] } } { basename := "f.nc" }
     (by intro cm hcm; simp at hcm) rfl⟩

/-! ## Claim C2: sub-daily minute rounding -/

theorem roundTime_spec (dt : DateTime) (hv : validTime dt) :
    (dt.second < 30 → roundTime dt 60 = floorMinute dt) ∧
    (30 ≤ dt.second → roundTime dt 60 = bumpMinute dt) := by
  obtain ⟨hh, hm, hs, hmu⟩ := hv
  constructor
  · intro h30
    have hr : (2 * dtSeconds dt + 60) / (2 * 60) * 60 = 3600 * dt.hour + 60 * dt.minute := by
      simp only [dtSeconds]
      omega
    have hlt : 3600 * dt.hour + 60 * dt.minute < 86400 := by omega
    rw [roundTime]
    simp only [hr, Nat.div_eq_of_lt hlt, Nat.mod_eq_of_lt hlt, addDaysDate]
    rw [floorMinute]
    simp only [DateTime.mk.injEq, true_and, and_true]
    omega
  · intro h30
    have hr : (2 * dtSeconds dt + 60) / (2 * 60) * 60 =
        3600 * dt.hour + 60 * dt.minute + 60 := by
      simp only [dtSeconds]
      omega
    rw [roundTime]
    simp only [hr]
    by_cases hm59 : dt.minute < 59
    · have hlt : 3600 * dt.hour + 60 * dt.minute + 60 < 86400 := by omega
      simp only [Nat.div_eq_of_lt hlt, Nat.mod_eq_of_lt hlt, addDaysDate]
      rw [bumpMinute, if_pos hm59]
      simp only [DateTime.mk.injEq, true_and, and_true]
      omega
    · by_cases hh23 : dt.hour < 23
      · have heq : dt.minute = 59 := by omega
        have hlt : 3600 * dt.hour + 60 * dt.minute + 60 < 86400 := by omega
        simp only [Nat.div_eq_of_lt hlt, Nat.mod_eq_of_lt hlt, addDaysDate]
        rw [bumpMinute, if_neg hm59, if_pos hh23]
        simp only [DateTime.mk.injEq, true_and, and_true]
        omega
      · have heqm : dt.minute = 59 := by omega
        have heqh : dt.hour = 23 := by omega
        have hval : 3600 * dt.hour + 60 * dt.minute + 60 = 86400 := by omega
        rw [hval]
        have hdiv : 86400 / 86400 = 1 := by norm_num
        have hmod : 86400 % 86400 = 0 := by norm_num
        rw [hdiv, hmod]
        simp only [addDaysDate]
        rw [bumpMinute, if_neg hm59, if_neg hh23]

/-- C2 (amended): the temporal-consistency check rounds the decoded data
start and end to the nearest whole minute (a tie of exactly 30 seconds
rounding up) exactly when the metadata's secondary frequency classification
is one of the hour-scale sub-daily codes `6hr`, `3hr`, `1hr`, with or
without the instantaneous-point qualifier `Pt`; hence an end time 34 seconds
past the minute preceding the filename-declared minute (26 seconds before
the declared minute) passes after rounding up, while an end time 34 seconds
past the declared minute itself rounds into the following minute and fails
with the end-date mismatch error. -/
theorem c2_subdaily_rounding :
    (∀ f : String, ∀ d : DateTime,
      maybeRound f d =
        if f ∈ ["6hr", "3hr", "1hr", "6hrPt", "3hrPt", "1hrPt"] then roundTime d 60 else d) ∧
    (∀ dt : DateTime, validTime dt →
      (dt.second < 30 → roundTime dt 60 = floorMinute dt) ∧
      (30 ≤ dt.second → roundTime dt 60 = bumpMinute dt)) ∧
    checkStartEndTimes n2dEx cubeEx (mdHighFreq 1) = .ok true ∧
    checkStartEndTimes n2dEx cubeEx (mdHighFreq 0) =
      .error (.endDateMismatch "file.nc") := by
  refine ⟨?_, roundTime_spec, by decide, by decide⟩
  intro f d
  rw [maybeRound]
  by_cases h : f ∈ roundingFreqs
  · rw [if_pos (List.elem_iff.mpr h), if_pos (by simpa [roundingFreqs] using h)]
  · rw [if_neg (fun hh => h (List.elem_iff.mp hh)),
      if_neg (by simpa [roundingFreqs] using h)]

/-- Witness for C2: the rounding guard at a non-sub-daily code, and the
rounding characterization at 2018-11-19 12:29:22 (rounds down) and
12:29:32 (rounds up). -/
theorem c2_witness :
    maybeRound "mon" ⟨2018, 11, 19, 12, 29, 22, 0⟩ = ⟨2018, 11, 19, 12, 29, 22, 0⟩ ∧
    roundTime ⟨2018, 11, 19, 12, 29, 22, 0⟩ 60 = floorMinute ⟨2018, 11, 19, 12, 29, 22, 0⟩ ∧
    roundTime ⟨2018, 11, 19, 12, 29, 32, 0⟩ 60 = bumpMinute ⟨2018, 11, 19, 12, 29, 32, 0⟩ :=
  ⟨by rw [c2_subdaily_rounding.1 "mon" ⟨2018, 11, 19, 12, 29, 22, 0⟩]; decide,
   (c2_subdaily_rounding.2.1 ⟨2018, 11, 19, 12, 29, 22, 0⟩ ⟨by decide, by decide, by decide, by decide⟩).1 (by decide),
   (c2_subdaily_rounding.2.1 ⟨2018, 11, 19, 12, 29, 32, 0⟩ ⟨by decide, by decide, by decide, by decide⟩).2 (by decide)⟩

/-! ## Claim C8: decode/encode round trip -/

theorem splitChar_no_sep (sep : Char) (l : List Char) (h : ∀ c ∈ l, c ≠ sep) :
    splitChar sep l = [l] := by
  induction l with
  | nil => rfl
  | cons c rest ih =>
    have hc : c ≠ sep := h c (by simp)
    rw [splitChar, ih fun x hx => h x (by simp [hx])]
    simp [hc]

theorem splitChar_sep_append (sep : Char) (s e : List Char)
    (hs : ∀ c ∈ s, c ≠ sep) (he : ∀ c ∈ e, c ≠ sep) :
    splitChar sep (s ++ sep :: e) = [s, e] := by
  induction s with
  | nil =>
    rw [List.nil_append, splitChar, splitChar_no_sep sep e he]
    simp
  | cons c rest ih =>
    have hc : c ≠ sep := hs c (by simp)
    rw [List.cons_append, splitChar, ih fun x hx => hs x (by simp [hx])]
    simp [hc]

theorem digit_ne_hyphen {c : Char} (h : isDigitChar c = true) : c ≠ '-' := by
  rintro rfl
  simp [isDigitChar] at h

theorem pySlice_length' (s : List Char) (a b : Nat) (_hab : a ≤ b)
    (hlen : b ≤ s.length) : (pySlice s a b).length = b - a := by
  simp [pySlice]
  omega

theorem decomp_slice' (s : List Char) (a b : Nat) (hab : a ≤ b) :
    List.drop a s = pySlice s a b ++ List.drop b s := by
  have h := decomp_slice s a (b - a)
  rwa [Nat.add_sub_cancel' hab] at h

theorem pyInt_slice' (s : List Char) (a b : Nat) (hab : a < b)
    (hlen : b ≤ s.length) (hd : ∀ c ∈ s, isDigitChar c = true) :
    pyInt (pySlice s a b) = some (Int.ofNat (valOfDigits (pySlice s a b))) := by
  apply pyInt_digits
  · intro hnil
    have := pySlice_length' s a b (by omega) hlen
    rw [hnil] at this
    simp at this
    omega
  · exact pySlice_digits a b hd

theorem padNat_slice' (s : List Char) (a b w : Nat) (hw : b - a = w) (hab : a ≤ b)
    (hlen : b ≤ s.length) (hd : ∀ c ∈ s, isDigitChar c = true) :
    padNat w (valOfDigits (pySlice s a b)) = pySlice s a b := by
  subst hw
  rw [← pySlice_length' s a b hab hlen]
  exact padNat_valOfDigits _ (pySlice_digits a b hd)

theorem encode_yr_unfold (p : PartialDateTime) :
    encodePartialDate "yr" p = p.year.map fun y => padNat 4 y.toNat := rfl

theorem encode_dec_unfold (p : PartialDateTime) :
    encodePartialDate "dec" p = p.year.map fun y => padNat 4 y.toNat := rfl

theorem encode_mon_unfold (p : PartialDateTime) :
    encodePartialDate "mon" p =
      (p.year.bind fun y => p.month.bind fun m =>
        some (padNat 4 y.toNat ++ padNat 2 m.toNat)) := rfl

theorem encode_day_unfold (p : PartialDateTime) :
    encodePartialDate "day" p =
      (p.year.bind fun y => p.month.bind fun m => p.day.bind fun d =>
        some (padNat 4 y.toNat ++ padNat 2 m.toNat ++ padNat 2 d.toNat)) := rfl

theorem encode_hrclass_unfold (freq : String)
    (hf : freq = "6hr" ∨ freq = "3hr" ∨ freq = "1hr" ∨ freq = "hr")
    (p : PartialDateTime) :
    encodePartialDate freq p =
      (p.year.bind fun y => p.month.bind fun m => p.day.bind fun d =>
       p.hour.bind fun h => p.minute.bind fun mi =>
        some (padNat 4 y.toNat ++ padNat 2 m.toNat ++ padNat 2 d.toNat ++
              padNat 2 h.toNat ++ padNat 2 mi.toNat)) := by
  rcases hf with rfl | rfl | rfl | rfl <;> rfl

theorem encode_subhr_unfold (p : PartialDateTime) :
    encodePartialDate "subhr" p =
      (p.year.bind fun y => p.month.bind fun m => p.day.bind fun d =>
       p.hour.bind fun h => p.minute.bind fun mi => p.second.bind fun sc =>
        some (padNat 4 y.toNat ++ padNat 2 m.toNat ++ padNat 2 d.toNat ++
              padNat 2 h.toNat ++ padNat 2 mi.toNat ++ padNat 2 sc.toNat)) := rfl

theorem mk_yrclass_unfold (freq : String) (hf : freq = "yr" ∨ freq = "dec")
    (ds : List Char) :
    mkPartialDateTime ds freq =
      (pyInt (pySlice ds 0 4)).bind fun y => some { year := some y } := by
  rcases hf with rfl | rfl <;> rfl

theorem mk_hrclass_unfold (freq : String)
    (hf : freq = "6hr" ∨ freq = "3hr" ∨ freq = "1hr" ∨ freq = "hr") (ds : List Char) :
    mkPartialDateTime ds freq =
      ((pyInt (pySlice ds 0 4)).bind fun y =>
       (pyInt (pySlice ds 4 6)).bind fun m =>
       (pyInt (pySlice ds 6 8)).bind fun d =>
       (pyInt (pySlice ds 8 10)).bind fun h =>
       (pyInt (pySlice ds 10 12)).bind fun mi =>
       some { year := some y, month := some m, day := some d,
              hour := some h, minute := some mi }) := by
  rcases hf with rfl | rfl | rfl | rfl <;> rfl

theorem roundtrip_yrclass (freq : String) (hf : freq = "yr" ∨ freq = "dec")
    (s : List Char) (hd : ∀ c ∈ s, isDigitChar c = true) (hl : s.length = 4) :
    ∃ p, mkPartialDateTime s freq = some p ∧ encodePartialDate freq p = some s := by
  have h1 := pyInt_slice' s 0 4 (by omega) (by omega) hd
  have e1 := padNat_slice' s 0 4 4 (by omega) (by omega) (by omega) hd
  have d1 : s = pySlice s 0 4 := by
    have e0 := decomp_slice' s 0 4 (by omega)
    have e4 : List.drop 4 s = [] := List.drop_eq_nil_of_le (by omega)
    rw [List.drop_zero, e4, List.append_nil] at e0
    exact e0
  refine ⟨{ year := some (Int.ofNat (valOfDigits (pySlice s 0 4))) }, ?_, ?_⟩
  · rw [mk_yrclass_unfold freq hf, h1]
    rfl
  · rcases hf with rfl | rfl
    · rw [encode_yr_unfold]
      show some (padNat 4 (valOfDigits (pySlice s 0 4))) = some s
      rw [e1, ← d1]
    · rw [encode_dec_unfold]
      show some (padNat 4 (valOfDigits (pySlice s 0 4))) = some s
      rw [e1, ← d1]

theorem roundtrip_mon (s : List Char) (hd : ∀ c ∈ s, isDigitChar c = true)
    (hl : s.length = 6) :
    ∃ p, mkPartialDateTime s "mon" = some p ∧ encodePartialDate "mon" p = some s := by
  have h1 := pyInt_slice' s 0 4 (by omega) (by omega) hd
  have h2 := pyInt_slice' s 4 6 (by omega) (by omega) hd
  have e1 := padNat_slice' s 0 4 4 (by omega) (by omega) (by omega) hd
  have e2 := padNat_slice' s 4 6 2 (by omega) (by omega) (by omega) hd
  have d1 : s = pySlice s 0 4 ++ pySlice s 4 6 := by
    have e0 := decomp_slice' s 0 4 (by omega)
    have e4 := decomp_slice' s 4 6 (by omega)
    have e6 : List.drop 6 s = [] := List.drop_eq_nil_of_le (by omega)
    rw [e6, List.append_nil] at e4
    rw [List.drop_zero, e4] at e0
    exact e0
  refine ⟨{ year := some (Int.ofNat (valOfDigits (pySlice s 0 4))),
            month := some (Int.ofNat (valOfDigits (pySlice s 4 6))) }, ?_, ?_⟩
  · rw [mk_mon_unfold, h1, h2]
    rfl
  · rw [encode_mon_unfold]
    show some (padNat 4 (valOfDigits (pySlice s 0 4)) ++
               padNat 2 (valOfDigits (pySlice s 4 6))) = some s
    rw [e1, e2, ← d1]

theorem roundtrip_day (s : List Char) (hd : ∀ c ∈ s, isDigitChar c = true)
    (hl : s.length = 8) :
    ∃ p, mkPartialDateTime s "day" = some p ∧ encodePartialDate "day" p = some s := by
  have h1 := pyInt_slice' s 0 4 (by omega) (by omega) hd
  have h2 := pyInt_slice' s 4 6 (by omega) (by omega) hd
  have h3 := pyInt_slice' s 6 8 (by omega) (by omega) hd
  have e1 := padNat_slice' s 0 4 4 (by omega) (by omega) (by omega) hd
  have e2 := padNat_slice' s 4 6 2 (by omega) (by omega) (by omega) hd
  have e3 := padNat_slice' s 6 8 2 (by omega) (by omega) (by omega) hd
  have d1 : s = pySlice s 0 4 ++ pySlice s 4 6 ++ pySlice s 6 8 := by
    have e0 := decomp_slice' s 0 4 (by omega)
    have e4 := decomp_slice' s 4 6 (by omega)
    have e6 := decomp_slice' s 6 8 (by omega)
    have e8 : List.drop 8 s = [] := List.drop_eq_nil_of_le (by omega)
    rw [e8, List.append_nil] at e6
    rw [e6] at e4
    rw [List.drop_zero, e4] at e0
    simp only [List.append_assoc]
    exact e0
  refine ⟨{ year := some (Int.ofNat (valOfDigits (pySlice s 0 4))),
            month := some (Int.ofNat (valOfDigits (pySlice s 4 6))),
            day := some (Int.ofNat (valOfDigits (pySlice s 6 8))) }, ?_, ?_⟩
  · rw [mk_day_unfold, h1, h2, h3]
    rfl
  · rw [encode_day_unfold]
    show some (padNat 4 (valOfDigits (pySlice s 0 4)) ++
               padNat 2 (valOfDigits (pySlice s 4 6)) ++
               padNat 2 (valOfDigits (pySlice s 6 8))) = some s
    rw [e1, e2, e3, ← d1]

theorem roundtrip_hrclass (freq : String)
    (hf : freq = "6hr" ∨ freq = "3hr" ∨ freq = "1hr" ∨ freq = "hr")
    (s : List Char) (hd : ∀ c ∈ s, isDigitChar c = true) (hl : s.length = 12) :
    ∃ p, mkPartialDateTime s freq = some p ∧ encodePartialDate freq p = some s := by
  have h1 := pyInt_slice' s 0 4 (by omega) (by omega) hd
  have h2 := pyInt_slice' s 4 6 (by omega) (by omega) hd
  have h3 := pyInt_slice' s 6 8 (by omega) (by omega) hd
  have h4 := pyInt_slice' s 8 10 (by omega) (by omega) hd
  have h5 := pyInt_slice' s 10 12 (by omega) (by omega) hd
  have e1 := padNat_slice' s 0 4 4 (by omega) (by omega) (by omega) hd
  have e2 := padNat_slice' s 4 6 2 (by omega) (by omega) (by omega) hd
  have e3 := padNat_slice' s 6 8 2 (by omega) (by omega) (by omega) hd
  have e4 := padNat_slice' s 8 10 2 (by omega) (by omega) (by omega) hd
  have e5 := padNat_slice' s 10 12 2 (by omega) (by omega) (by omega) hd
  have d1 : s = pySlice s 0 4 ++ pySlice s 4 6 ++ pySlice s 6 8 ++
      pySlice s 8 10 ++ pySlice s 10 12 := by
    have f0 := decomp_slice' s 0 4 (by omega)
    have f4 := decomp_slice' s 4 6 (by omega)
    have f6 := decomp_slice' s 6 8 (by omega)
    have f8 := decomp_slice' s 8 10 (by omega)
    have f10 := decomp_slice' s 10 12 (by omega)
    have f12 : List.drop 12 s = [] := List.drop_eq_nil_of_le (by omega)
    rw [f12, List.append_nil] at f10
    rw [f10] at f8
    rw [f8] at f6
    rw [f6] at f4
    rw [List.drop_zero, f4] at f0
    simp only [List.append_assoc]
    exact f0
  refine ⟨{ year := some (Int.ofNat (valOfDigits (pySlice s 0 4))),
            month := some (Int.ofNat (valOfDigits (pySlice s 4 6))),
            day := some (Int.ofNat (valOfDigits (pySlice s 6 8))),
            hour := some (Int.ofNat (valOfDigits (pySlice s 8 10))),
            minute := some (Int.ofNat (valOfDigits (pySlice s 10 12))) }, ?_, ?_⟩
  · rw [mk_hrclass_unfold freq hf, h1, h2, h3, h4, h5]
    rfl
  · rw [encode_hrclass_unfold freq hf]
    show some (padNat 4 (valOfDigits (pySlice s 0 4)) ++
               padNat 2 (valOfDigits (pySlice s 4 6)) ++
               padNat 2 (valOfDigits (pySlice s 6 8)) ++
               padNat 2 (valOfDigits (pySlice s 8 10)) ++
               padNat 2 (valOfDigits (pySlice s 10 12))) = some s
    rw [e1, e2, e3, e4, e5, ← d1]

theorem roundtrip_subhr (s : List Char) (hd : ∀ c ∈ s, isDigitChar c = true)
    (hl : s.length = 14) :
    ∃ p, mkPartialDateTime s "subhr" = some p ∧ encodePartialDate "subhr" p = some s := by
  have h1 := pyInt_slice' s 0 4 (by omega) (by omega) hd
  have h2 := pyInt_slice' s 4 6 (by omega) (by omega) hd
  have h3 := pyInt_slice' s 6 8 (by omega) (by omega) hd
  have h4 := pyInt_slice' s 8 10 (by omega) (by omega) hd
  have h5 := pyInt_slice' s 10 12 (by omega) (by omega) hd
  have h6 := pyInt_slice' s 12 14 (by omega) (by omega) hd
  have e1 := padNat_slice' s 0 4 4 (by omega) (by omega) (by omega) hd
  have e2 := padNat_slice' s 4 6 2 (by omega) (by omega) (by omega) hd
  have e3 := padNat_slice' s 6 8 2 (by omega) (by omega) (by omega) hd
  have e4 := padNat_slice' s 8 10 2 (by omega) (by omega) (by omega) hd
  have e5 := padNat_slice' s 10 12 2 (by omega) (by omega) (by omega) hd
  have e6 := padNat_slice' s 12 14 2 (by omega) (by omega) (by omega) hd
  have d1 : s = pySlice s 0 4 ++ pySlice s 4 6 ++ pySlice s 6 8 ++
      pySlice s 8 10 ++ pySlice s 10 12 ++ pySlice s 12 14 := by
    have f0 := decomp_slice' s 0 4 (by omega)
    have f4 := decomp_slice' s 4 6 (by omega)
    have f6 := decomp_slice' s 6 8 (by omega)
    have f8 := decomp_slice' s 8 10 (by omega)
    have f10 := decomp_slice' s 10 12 (by omega)
    have f12 := decomp_slice' s 12 14 (by omega)
    have f14 : List.drop 14 s = [] := List.drop_eq_nil_of_le (by omega)
    rw [f14, List.append_nil] at f12
    rw [f12] at f10
    rw [f10] at f8
    rw [f8] at f6
    rw [f6] at f4
    rw [List.drop_zero, f4] at f0
    simp only [List.append_assoc]
    exact f0
  refine ⟨{ year := some (Int.ofNat (valOfDigits (pySlice s 0 4))),
            month := some (Int.ofNat (valOfDigits (pySlice s 4 6))),
            day := some (Int.ofNat (valOfDigits (pySlice s 6 8))),
            hour := some (Int.ofNat (valOfDigits (pySlice s 8 10))),
            minute := some (Int.ofNat (valOfDigits (pySlice s 10 12))),
            second := some (Int.ofNat (valOfDigits (pySlice s 12 14))) }, ?_, ?_⟩
  · rw [mk_subhr_unfold, h1, h2, h3, h4, h5, h6]
    rfl
  · rw [encode_subhr_unfold]
    show some (padNat 4 (valOfDigits (pySlice s 0 4)) ++
               padNat 2 (valOfDigits (pySlice s 4 6)) ++
               padNat 2 (valOfDigits (pySlice s 6 8)) ++
               padNat 2 (valOfDigits (pySlice s 8 10)) ++
               padNat 2 (valOfDigits (pySlice s 10 12)) ++
               padNat 2 (valOfDigits (pySlice s 12 14))) = some s
    rw [e1, e2, e3, e4, e5, e6, ← d1]

theorem roundtrip_any (freq : String) (hf : freq ∈ supportedFrequencies)
    (s : List Char) (hd : ∀ c ∈ s, isDigitChar c = true)
    (hl : s.length = layoutWidth freq) :
    ∃ p, mkPartialDateTime s freq = some p ∧ encodePartialDate freq p = some s := by
  fin_cases hf
  · exact roundtrip_yrclass "yr" (Or.inl rfl) s hd (by simpa [layoutWidth] using hl)
  · exact roundtrip_yrclass "dec" (Or.inr rfl) s hd (by simpa [layoutWidth] using hl)
  · exact roundtrip_mon s hd (by simpa [layoutWidth] using hl)
  · exact roundtrip_day s hd (by simpa [layoutWidth] using hl)
  · exact roundtrip_hrclass "6hr" (by simp) s hd (by simpa [layoutWidth] using hl)
  · exact roundtrip_hrclass "3hr" (by simp) s hd (by simpa [layoutWidth] using hl)
  · exact roundtrip_hrclass "1hr" (by simp) s hd (by simpa [layoutWidth] using hl)
  · exact roundtrip_hrclass "hr" (by simp) s hd (by simpa [layoutWidth] using hl)
  · exact roundtrip_subhr s hd (by simpa [layoutWidth] using hl)

/-- C8: for every supported frequency and digit-only start/end strings of the
layout's expected width, the date-range token decodes successfully and
re-encoding the two decoded partial dates as fixed-width zero-padded decimal
strings joined by a hyphen reproduces the token exactly. -/
theorem c8_roundtrip (freq : String) (hfreq : freq ∈ supportedFrequencies)
    (fn : String) (s e : List Char)
    (hds : ∀ c ∈ s, isDigitChar c = true) (hde : ∀ c ∈ e, isDigitChar c = true)
    (hls : s.length = layoutWidth freq) (hle : e.length = layoutWidth freq) :
    ∃ p q, parseDateRange fn (s ++ '-' :: e) freq = .ok (p, q) ∧
      encodePartialDate freq p = some s ∧ encodePartialDate freq q = some e ∧
      encodeDateRange freq p q = some (s ++ '-' :: e) := by
  obtain ⟨p, hp, hpe⟩ := roundtrip_any freq hfreq s hds hls
  obtain ⟨q, hq, hqe⟩ := roundtrip_any freq hfreq e hde hle
  have hsplit := splitChar_sep_append '-' s e
    (fun c hc => digit_ne_hyphen (hds c hc)) (fun c hc => digit_ne_hyphen (hde c hc))
  refine ⟨p, q, ?_, hpe, hqe, ?_⟩
  · simp [parseDateRange, hsplit, hp, hq]
  · simp [encodeDateRange, hpe, hqe]

/-- Witness for C8: the round trip at frequency `mon` on the date token of
the example filename. -/
theorem c8_witness :
    ∃ p q, parseDateRange "f.nc" ("185912".toList ++ '-' :: "188411".toList) "mon" =
        .ok (p, q) ∧
      encodePartialDate "mon" p = some "185912".toList ∧
      encodePartialDate "mon" q = some "188411".toList ∧
      encodeDateRange "mon" p q = some ("185912".toList ++ '-' :: "188411".toList) :=
  c8_roundtrip "mon" (by decide) "f.nc" "185912".toList "188411".toList
    (by decide) (by decide) (by decide) (by decide)

/-! ## Claim C9: uncaught IndexError at the merge step -/

/-- C9: whenever the basename splits, after stripping the extension, into
fewer than four tokens — or into exactly four with the fourth equal to
`present` — the decoder stops with the uncaught out-of-range indexing error
of the `present`/`day` merge step, which is not one of the defined
validation error kinds. -/
theorem c9_uncaught_index_error (filename : String) (filesize : Nat) (fileFormat : String)
    (hfmt : fileFormat = "CMIP5" ∨ fileFormat = "CMIP6")
    (h : (filenameSects (osBasename filename)).length < 4 ∨
         ((filenameSects (osBasename filename)).length = 4 ∧
          (filenameSects (osBasename filename))[3]? = some "present")) :
    identifyFilenameMetadata filename filesize fileFormat = .error .indexError ∧
    VErr.isFileValidationError .indexError = false := by
  refine ⟨?_, rfl⟩
  have hm : mergeSects (filenameSects (osBasename filename)) = .error .indexError := by
    rcases h with h | ⟨h4, hp⟩
    · have h3 : (filenameSects (osBasename filename))[3]? = none :=
        List.getElem?_eq_none (by omega)
      simp [mergeSects, h3]
    · have h5 : (filenameSects (osBasename filename))[4]? = none :=
        List.getElem?_eq_none (by omega)
      simp [mergeSects, hp, h5]
  rcases hfmt with rfl | rfl <;> simp [identifyFilenameMetadata, componentsFor, hm]

/-- Witness for C9: the two-token filename `a_b.nc` under the CMIP5 schema
raises the indexing error. -/
theorem c9_witness :
    identifyFilenameMetadata "a_b.nc" 7 "CMIP5" = .error .indexError ∧
    VErr.isFileValidationError .indexError = false :=
  c9_uncaught_index_error "a_b.nc" 7 "CMIP5" (Or.inl rfl) (Or.inl (by decide))

/-! ## Decoder inversion lemmas (claims C5, C6, C10) -/

theorem componentsFor_cmip5 :
    componentsFor "CMIP5" =
      some ["cmor_name", "table", "climate_model", "experiment", "rip_code",
            "date_string"] := rfl

theorem componentsFor_cmip6 :
    componentsFor "CMIP6" =
      some ["cmor_name", "table", "climate_model", "experiment", "rip_code", "grid",
            "date_string"] := rfl

theorem mergeSects_ok_length {s sects : List String} (h : mergeSects s = .ok sects) :
    4 ≤ sects.length := by
  cases h3 : s[3]? with
  | none => simp [mergeSects, h3] at h
  | some s3 =>
    have hlen : 4 ≤ s.length := by
      by_contra hc
      rw [List.getElem?_eq_none (by omega)] at h3
      cases h3
    by_cases hp : s3 = "present"
    · cases h4 : s[4]? with
      | none => simp [mergeSects, h3, hp, h4] at h
      | some s4 =>
        have hlen5 : 5 ≤ s.length := by
          by_contra hc
          rw [List.getElem?_eq_none (by omega)] at h4
          cases h4
        by_cases hd : s4 = "day"
        · simp [mergeSects, h3, hp, h4, hd] at h
          rw [← h]
          simp [List.length_take]
          omega
        · simp [mergeSects, h3, hp, h4, hd] at h
          rw [← h]
          omega
    · simp [mergeSects, h3, hp] at h
      rw [← h]
      omega

set_option maxHeartbeats 1000000 in
theorem identify_ok_cmip5 (fname : String) (fsize : Nat) (md : Metadata)
    (h : identifyFilenameMetadata fname fsize "CMIP5" = .ok md) :
    ∃ sects, mergeSects (filenameSects (osBasename fname)) = .ok sects ∧
      (List.lookup "basename" md).isSome = true ∧
      (List.lookup "directory" md).isSome = true ∧
      List.lookup "filesize" md = some (.nat fsize) ∧
      (∃ t, List.lookup "table" md = some (.str t) ∧
            List.lookup "frequency" md = some (.str (secondaryFrequency t))) ∧
      (if 6 ≤ sects.length then
        ∃ p q, List.lookup "start_date" md = some (.pdt p) ∧
               List.lookup "end_date" md = some (.pdt q)
       else
        List.lookup "start_date" md = some .nothing ∧
        List.lookup "end_date" md = some .nothing) := by
  simp only [identifyFilenameMetadata, componentsFor_cmip5] at h
  cases hm : mergeSects (filenameSects (osBasename fname)) with
  | error e => rw [hm] at h; cases h
  | ok sects =>
    rw [hm] at h
    have hlen := mergeSects_ok_length hm
    rcases sects with _ | ⟨s0, _ | ⟨s1, _ | ⟨s2, _ | ⟨s3, _ | ⟨s4, _ | ⟨s5, rest⟩⟩⟩⟩⟩⟩
    · simp at hlen
    · simp at hlen
    · simp at hlen
    · simp at hlen
    · simp [zipLoop, mdInsert, fillMissing, List.lookup] at h
      subst h
      refine ⟨[s0, s1, s2, s3], rfl, ?_, ?_, ?_, ⟨s1, ?_, ?_⟩, ?_⟩ <;>
        simp [List.lookup]
    · simp [zipLoop, mdInsert, fillMissing, List.lookup] at h
      subst h
      refine ⟨[s0, s1, s2, s3, s4], rfl, ?_, ?_, ?_, ⟨s1, ?_, ?_⟩, ?_⟩ <;>
        simp [List.lookup]
    · cases hg : getFrequency s1 with
      | none => simp [zipLoop, mdInsert, List.lookup, hg] at h
      | some freq =>
        cases hpd : parseDateRange fname s5.data freq with
        | error e => simp [zipLoop, mdInsert, List.lookup, hg, hpd] at h
        | ok pq =>
          obtain ⟨p, q⟩ := pq
          simp [zipLoop, mdInsert, List.lookup, fillMissing, hg, hpd] at h
          subst h
          refine ⟨s0 :: s1 :: s2 :: s3 :: s4 :: s5 :: rest, rfl,
            ?_, ?_, ?_, ⟨s1, ?_, ?_⟩, ?_⟩ <;> simp [List.lookup]

set_option maxHeartbeats 1000000 in
theorem identify_ok_cmip6 (fname : String) (fsize : Nat) (md : Metadata)
    (h : identifyFilenameMetadata fname fsize "CMIP6" = .ok md) :
    ∃ sects, mergeSects (filenameSects (osBasename fname)) = .ok sects ∧
      (List.lookup "basename" md).isSome = true ∧
      (List.lookup "directory" md).isSome = true ∧
      List.lookup "filesize" md = some (.nat fsize) ∧
      (∃ t, List.lookup "table" md = some (.str t) ∧
            List.lookup "frequency" md = some (.str (secondaryFrequency t))) ∧
      (if 7 ≤ sects.length then
        ∃ p q, List.lookup "start_date" md = some (.pdt p) ∧
               List.lookup "end_date" md = some (.pdt q)
       else
        List.lookup "start_date" md = some .nothing ∧
        List.lookup "end_date" md = some .nothing) := by
  simp only [identifyFilenameMetadata, componentsFor_cmip6] at h
  cases hm : mergeSects (filenameSects (osBasename fname)) with
  | error e => rw [hm] at h; cases h
  | ok sects =>
    rw [hm] at h
    have hlen := mergeSects_ok_length hm
    rcases sects with _ | ⟨s0, _ | ⟨s1, _ | ⟨s2, _ | ⟨s3, _ | ⟨s4, _ | ⟨s5, _ | ⟨s6, rest⟩⟩⟩⟩⟩⟩⟩
    · simp at hlen
    · simp at hlen
    · simp at hlen
    · simp at hlen
    · simp [zipLoop, mdInsert, fillMissing, List.lookup] at h
      subst h
      refine ⟨[s0, s1, s2, s3], rfl, ?_, ?_, ?_, ⟨s1, ?_, ?_⟩, ?_⟩ <;>
        simp [List.lookup]
    · simp [zipLoop, mdInsert, fillMissing, List.lookup] at h
      subst h
      refine ⟨[s0, s1, s2, s3, s4], rfl, ?_, ?_, ?_, ⟨s1, ?_, ?_⟩, ?_⟩ <;>
        simp [List.lookup]
    · simp [zipLoop, mdInsert, fillMissing, List.lookup] at h
      subst h
      refine ⟨[s0, s1, s2, s3, s4, s5], rfl, ?_, ?_, ?_, ⟨s1, ?_, ?_⟩, ?_⟩ <;>
        simp [List.lookup]
    · cases hg : getFrequency s1 with
      | none => simp [zipLoop, mdInsert, List.lookup, hg] at h
      | some freq =>
        cases hpd : parseDateRange fname s6.data freq with
        | error e => simp [zipLoop, mdInsert, List.lookup, hg, hpd] at h
        | ok pq =>
          obtain ⟨p, q⟩ := pq
          simp [zipLoop, mdInsert, List.lookup, fillMissing, hg, hpd] at h
          subst h
          refine ⟨s0 :: s1 :: s2 :: s3 :: s4 :: s5 :: s6 :: rest, rfl,
            ?_, ?_, ?_, ⟨s1, ?_, ?_⟩, ?_⟩ <;> simp [List.lookup]

theorem find?_some_decomp {α : Type} (p : α → Bool) (l : List α) (x : α)
    (h : l.find? p = some x) :
    p x = true ∧ ∃ l1 l2, l = l1 ++ x :: l2 ∧ ∀ y ∈ l1, p y = false := by
  induction l with
  | nil => simp [List.find?] at h
  | cons a rest ih =>
    by_cases ha : p a
    · rw [List.find?_cons_of_pos _ ha] at h
      injection h with h
      subst h
      exact ⟨ha, [], rest, rfl, by simp⟩
    · rw [List.find?_cons_of_neg _ (by simpa using ha)] at h
      obtain ⟨hx, l1, l2, hsplit, hl1⟩ := ih h
      refine ⟨hx, a :: l1, l2, by simp [hsplit], ?_⟩
      intro y hy
      rcases List.mem_cons.mp hy with rfl | hy
      · simpa using ha
      · exact hl1 y hy

theorem secondaryFrequency_blank (t : String)
    (h : ∀ f ∈ FREQUENCY_VALUES, containsSub (lowerStr t).toList f.toList = false) :
    secondaryFrequency t = "" := by
  rw [secondaryFrequency, List.find?_eq_none.mpr (by simpa using h)]

/-! ## Claim C10 -/

/-- C10: whenever the decoder returns normally, the metadata has the keys
`basename`, `directory`, `start_date`, `end_date`, `frequency` and
`filesize`; the two dates are both `None` exactly when the (merged) section
list is shorter than the schema's component list, i.e. when no date-range
token was consumed during zipping; and the frequency field is the empty
string when no vocabulary member occurs in the lowercased table field. -/
theorem c10_decoder_invariants (fname : String) (fsize : Nat) (fmt : String)
    (md : Metadata) (h : identifyFilenameMetadata fname fsize fmt = .ok md) :
    (List.lookup "basename" md).isSome = true ∧
    (List.lookup "directory" md).isSome = true ∧
    (List.lookup "start_date" md).isSome = true ∧
    (List.lookup "end_date" md).isSome = true ∧
    (List.lookup "frequency" md).isSome = true ∧
    (List.lookup "filesize" md).isSome = true ∧
    (∀ comps sects, componentsFor fmt = some comps →
      mergeSects (filenameSects (osBasename fname)) = .ok sects →
      ((List.lookup "start_date" md = some .nothing ∧
        List.lookup "end_date" md = some .nothing) ↔ sects.length < comps.length)) ∧
    (∀ t, List.lookup "table" md = some (.str t) →
      (∀ f ∈ FREQUENCY_VALUES, containsSub (lowerStr t).toList f.toList = false) →
      List.lookup "frequency" md = some (.str "")) := by
  have main : ∃ sects w, mergeSects (filenameSects (osBasename fname)) = .ok sects ∧
      componentsFor fmt = some w ∧
      (List.lookup "basename" md).isSome = true ∧
      (List.lookup "directory" md).isSome = true ∧
      List.lookup "filesize" md = some (.nat fsize) ∧
      (∃ t, List.lookup "table" md = some (.str t) ∧
            List.lookup "frequency" md = some (.str (secondaryFrequency t))) ∧
      (if w.length ≤ sects.length then
        ∃ p q, List.lookup "start_date" md = some (.pdt p) ∧
               List.lookup "end_date" md = some (.pdt q)
       else
        List.lookup "start_date" md = some .nothing ∧
        List.lookup "end_date" md = some .nothing) := by
    by_cases h5 : fmt = "CMIP5"
    · subst h5
      obtain ⟨sects, hm, hb, hd, hfs, ht, hif⟩ := identify_ok_cmip5 fname fsize md h
      exact ⟨sects, _, hm, componentsFor_cmip5, hb, hd, hfs, ht, hif⟩
    · by_cases h6 : fmt = "CMIP6"
      · subst h6
        obtain ⟨sects, hm, hb, hd, hfs, ht, hif⟩ := identify_ok_cmip6 fname fsize md h
        exact ⟨sects, _, hm, componentsFor_cmip6, hb, hd, hfs, ht, hif⟩
      · exfalso
        simp [identifyFilenameMetadata, componentsFor, h5, h6] at h
  obtain ⟨sects, w, hm, hw, hb, hd, hfs, ⟨t, ht, hf⟩, hif⟩ := main
  have hse : (List.lookup "start_date" md).isSome = true ∧
      (List.lookup "end_date" md).isSome = true := by
    by_cases hc : w.length ≤ sects.length
    · rw [if_pos hc] at hif
      obtain ⟨p, q, hp, hq⟩ := hif
      simp [hp, hq]
    · rw [if_neg hc] at hif
      simp [hif.1, hif.2]
  refine ⟨hb, hd, hse.1, hse.2, by simp [hf], by simp [hfs], ?_, ?_⟩
  · intro comps sects' hcomps hm'
    rw [hm] at hm'
    injection hm' with hm'
    subst hm'
    rw [hw] at hcomps
    injection hcomps with hcomps
    subst hcomps
    by_cases hc : w.length ≤ sects.length
    · rw [if_pos hc] at hif
      obtain ⟨p, q, hp, hq⟩ := hif
      constructor
      · intro hno
        rw [hp] at hno
        cases hno.1
      · intro hlt
        omega
    · rw [if_neg hc] at hif
      constructor
      · intro _
        omega
      · intro _
        exact hif
  · intro t' ht' hno
    rw [ht] at ht'
    injection ht' with ht'
    injection ht' with ht'
    subst ht'
    rw [hf, secondaryFrequency_blank t hno]

/-- Witness for C10: the invariants instantiated at the decoded example
metadata of `clt_Amon_Monty_historical_r1i1p1_185912-188411.nc`. -/
theorem c10_witness :
    (List.lookup "basename" exampleMd5).isSome = true ∧
    (List.lookup "start_date" exampleMd5).isSome = true ∧
    (List.lookup "frequency" exampleMd5).isSome = true := by
  have h := c10_decoder_invariants "clt_Amon_Monty_historical_r1i1p1_185912-188411.nc"
    1234 "CMIP5" exampleMd5 (by decide)
  exact ⟨h.1, h.2.2.1, h.2.2.2.2.1⟩

/-! ## Claim C6 -/

/-- C6 (amended): the frequency field of the decoded metadata equals the
first member of the source's vocabulary `['ann', 'mon', 'day', '6hr', '3hr',
'1hr', 'subhr', 'fx']` (in that order — without the `dec`, `yr` and `hr` of
the claimed vocabulary) occurring as a substring of the lowercased table
field, and is the empty string exactly when no member is such a substring. -/
theorem c6_frequency_field (fname : String) (fsize : Nat) (fmt : String)
    (md : Metadata) (t : String)
    (h : identifyFilenameMetadata fname fsize fmt = .ok md)
    (ht : List.lookup "table" md = some (.str t)) :
    List.lookup "frequency" md = some (.str (secondaryFrequency t)) ∧
    (secondaryFrequency t = "" ↔
      ∀ f ∈ FREQUENCY_VALUES, containsSub (lowerStr t).toList f.toList = false) ∧
    (∀ f, secondaryFrequency t = f → f ≠ "" →
      containsSub (lowerStr t).toList f.toList = true ∧
      ∃ l1 l2, FREQUENCY_VALUES = l1 ++ f :: l2 ∧
        ∀ g ∈ l1, containsSub (lowerStr t).toList g.toList = false) := by
  have main : ∃ t', List.lookup "table" md = some (.str t') ∧
      List.lookup "frequency" md = some (.str (secondaryFrequency t')) := by
    by_cases h5 : fmt = "CMIP5"
    · subst h5
      obtain ⟨sects, hm, hb, hd, hfs, ht', hif⟩ := identify_ok_cmip5 fname fsize md h
      exact ht'
    · by_cases h6 : fmt = "CMIP6"
      · subst h6
        obtain ⟨sects, hm, hb, hd, hfs, ht', hif⟩ := identify_ok_cmip6 fname fsize md h
        exact ht'
      · exfalso
        simp [identifyFilenameMetadata, componentsFor, h5, h6] at h
  obtain ⟨t', ht2, hf⟩ := main
  rw [ht] at ht2
  injection ht2 with ht2
  injection ht2 with ht2
  subst ht2
  refine ⟨hf, ?_, ?_⟩
  · constructor
    · intro hblank
      cases hfind : FREQUENCY_VALUES.find?
          (fun f => containsSub (lowerStr t).toList f.toList) with
      | none => simpa using List.find?_eq_none.mp hfind
      | some f =>
        exfalso
        rw [secondaryFrequency, hfind] at hblank
        subst hblank
        have hmem := List.mem_of_find?_eq_some hfind
        simp [FREQUENCY_VALUES] at hmem
    · exact secondaryFrequency_blank t
  · intro f hef hne
    cases hfind : FREQUENCY_VALUES.find?
        (fun f => containsSub (lowerStr t).toList f.toList) with
    | none =>
      exfalso
      rw [secondaryFrequency, hfind] at hef
      exact hne hef.symm
    | some g =>
      rw [secondaryFrequency, hfind] at hef
      subst hef
      obtain ⟨hp, l1, l2, hsplit, hl1⟩ := find?_some_decomp _ _ _ hfind
      exact ⟨hp, l1, l2, hsplit, hl1⟩

/-- Witness for C6: the amended characterization at the example decode with
table `Amon` (frequency `mon`). -/
theorem c6_witness :
    List.lookup "frequency" exampleMd5 = some (.str (secondaryFrequency "Amon")) ∧
    containsSub (lowerStr "Amon").toList "mon".toList = true :=
  ⟨(c6_frequency_field "clt_Amon_Monty_historical_r1i1p1_185912-188411.nc" 1234 "CMIP5"
      exampleMd5 "Amon" (by decide) (by decide)).1,
   by decide⟩

/-! ## Claim C5 -/

/-- C5 (amended): a filename whose (merged) section list is shorter than the
schema's component list does not fail with the malformed-filename error —
provided the merge step's subscripts are in range, the decoder returns
normally with `start_date` and `end_date` set to `None` (zipping stops
before the date field). -/
theorem c5_short_filename_ok (fname : String) (fsize : Nat) (fmt : String)
    (comps sects : List String)
    (hcomps : componentsFor fmt = some comps)
    (hm : mergeSects (filenameSects (osBasename fname)) = .ok sects)
    (hshort : sects.length < comps.length) :
    ∃ md, identifyFilenameMetadata fname fsize fmt = .ok md ∧
      List.lookup "start_date" md = some .nothing ∧
      List.lookup "end_date" md = some .nothing := by
  have hlen := mergeSects_ok_length hm
  by_cases h5 : fmt = "CMIP5"
  · subst h5
    rw [componentsFor_cmip5] at hcomps
    injection hcomps with hcomps
    subst hcomps
    simp only [identifyFilenameMetadata, componentsFor_cmip5, hm]
    rcases sects with _ | ⟨s0, _ | ⟨s1, _ | ⟨s2, _ | ⟨s3, _ | ⟨s4, _ | ⟨s5, rest⟩⟩⟩⟩⟩⟩
    · simp at hlen
    · simp at hlen
    · simp at hlen
    · simp at hlen
    · refine ⟨_, rfl, ?_⟩
      simp [zipLoop, mdInsert, fillMissing, List.lookup]
    · refine ⟨_, rfl, ?_⟩
      simp [zipLoop, mdInsert, fillMissing, List.lookup]
    · exfalso
      simp at hshort
      omega
  · by_cases h6 : fmt = "CMIP6"
    · subst h6
      rw [componentsFor_cmip6] at hcomps
      injection hcomps with hcomps
      subst hcomps
      simp only [identifyFilenameMetadata, componentsFor_cmip6, hm]
      rcases sects with _ | ⟨s0, _ | ⟨s1, _ | ⟨s2, _ | ⟨s3, _ | ⟨s4, _ | ⟨s5, _ | ⟨s6, rest⟩⟩⟩⟩⟩⟩⟩
      · simp at hlen
      · simp at hlen
      · simp at hlen
      · simp at hlen
      · refine ⟨_, rfl, ?_⟩
        simp [zipLoop, mdInsert, fillMissing, List.lookup]
      · refine ⟨_, rfl, ?_⟩
        simp [zipLoop, mdInsert, fillMissing, List.lookup]
      · refine ⟨_, rfl, ?_⟩
        simp [zipLoop, mdInsert, fillMissing, List.lookup]
      · exfalso
        simp at hshort
        omega
    · rw [componentsFor, if_neg h5, if_neg h6] at hcomps
      cases hcomps

/-- Witness for C5: the five-token filename under the six-component CMIP5
schema decodes normally with blank dates. -/
theorem c5_witness :
    ∃ md, identifyFilenameMetadata "clt_Amon_Monty_historical_r1i1p1.nc" 1234 "CMIP5" =
        .ok md ∧
      List.lookup "start_date" md = some .nothing ∧
      List.lookup "end_date" md = some .nothing :=
  c5_short_filename_ok "clt_Amon_Monty_historical_r1i1p1.nc" 1234 "CMIP5"
    ["cmor_name", "table", "climate_model", "experiment", "rip_code", "date_string"]
    ["clt", "Amon", "Monty", "historical", "r1i1p1"]
    rfl (by decide) (by decide)

end PrimaveraVal
